import Mathlib

/-!
Verification development for the expense-agent repository: a shallow
embedding of the expense-store tools (add, update, delete, find, analyze),
the difflib-based fuzzy name matcher they share, and the Gmail
change-detection handler, together with theorems settling the spec claims.

Machine integers/floats of the source are modelled as `Nat`/`Int`/`ℚ`;
remote-store calls are modelled by an explicit environment whose read may
fail and whose writes are recorded as a trace of operations; fallible code
returns `Except`.
-/

unseal Rat.mul Rat.inv Rat.add Rat.sub Rat.ofScientific

set_option maxRecDepth 40000
set_option maxHeartbeats 2000000

deriving instance DecidableEq for Except

namespace ExpenseAgent

/-! ### Python-style string helpers -/

/-- Python `str.lower()` restricted to ASCII (all repository data is ASCII). -/
def pyLower (s : String) : String := ⟨s.data.map Char.toLower⟩

/-- Python `str.strip()`: drop whitespace from both ends. -/
def pyStrip (s : String) : String :=
  ⟨(s.data.dropWhile Char.isWhitespace).reverse.dropWhile Char.isWhitespace |>.reverse⟩

/-- Python `needle in hay` on strings: contiguous substring containment. -/
def pySubstr (needle hay : String) : Bool :=
  (List.range (hay.data.length + 1)).any fun k => needle.data.isPrefixOf (hay.data.drop k)

/-- Python `<` on strings: lexicographic comparison by code point. -/
def pyStrLtChars : List Char → List Char → Bool
  | [], [] => false
  | [], _ :: _ => true
  | _ :: _, [] => false
  | x :: xs, y :: ys =>
    if x.toNat < y.toNat then true
    else if y.toNat < x.toNat then false
    else pyStrLtChars xs ys

def pyStrLt (a b : String) : Bool := pyStrLtChars a.data b.data

/-- Python `str.capitalize()`: first char upper-cased, the rest lower-cased. -/
def pyCapitalize (s : String) : String :=
  match s.data with
  | [] => ""
  | c :: rest => ⟨c.toUpper :: rest.map Char.toLower⟩

/-- Parse a run of decimal digits. -/
def digitsToNat (l : List Char) : Nat :=
  l.foldl (fun acc c => acc * 10 + (c.toNat - 48)) 0

def allDigits (l : List Char) : Bool := !l.isEmpty && l.all Char.isDigit

/-- Python `int(s)` for base-10 strings: strip, optional sign, digits. -/
def pyParseInt (s : String) : Option Int :=
  let t := (pyStrip s).data
  match t with
  | '+' :: rest => if allDigits rest then some (digitsToNat rest) else none
  | '-' :: rest => if allDigits rest then some (-(digitsToNat rest : Int)) else none
  | rest => if allDigits rest then some (digitsToNat rest) else none

/-- Python `float(s)` on plain decimal literals: strip, optional sign,
digits with an optional fractional part and optional exponent.  Values are
modelled exactly as rationals. -/
def pyParseFloat (s : String) : Option ℚ :=
  let t := (pyStrip s).data
  let (sign, body) : ℚ × List Char :=
    match t with
    | '+' :: rest => (1, rest)
    | '-' :: rest => (-1, rest)
    | rest => (1, rest)
  let (mant, expPart) : List Char × List Char :=
    match body.splitOn 'e' with
    | [m] => (m, [])
    | [m, e] => (m, if e.isEmpty then ['x'] else e)
    | _ => ([], ['x'])
  let mantissa : Option ℚ :=
    match mant.splitOn '.' with
    | [intPart] => if allDigits intPart then some (digitsToNat intPart : ℚ) else none
    | [intPart, fracPart] =>
      if (allDigits intPart || intPart.isEmpty) && (allDigits fracPart || fracPart.isEmpty)
          && !(intPart.isEmpty && fracPart.isEmpty) then
        some ((digitsToNat intPart : ℚ) + (digitsToNat fracPart : ℚ) / (10 ^ fracPart.length : ℚ))
      else none
    | _ => none
  let expVal : Option Int :=
    match expPart with
    | [] => some 0
    | '+' :: rest => if allDigits rest then some (digitsToNat rest) else none
    | '-' :: rest => if allDigits rest then some (-(digitsToNat rest : Int)) else none
    | rest => if allDigits rest then some (digitsToNat rest) else none
  match mantissa, expVal with
  | some m, some e => some (sign * m * (10 : ℚ) ^ e)
  | _, _ => none

/-! ### Calendar dates

Dates are represented as day numbers (days since 1970-01-01), with the
standard civil-calendar conversions, matching Python `datetime` arithmetic
and the Google-Sheets serial anchor 1899-12-30. -/

def isLeapYear (y : Int) : Bool :=
  y % 4 == 0 && (y % 100 != 0 || y % 400 == 0)

def daysInMonth (y m : Int) : Int :=
  if m = 2 then (if isLeapYear y then 29 else 28)
  else if m = 4 ∨ m = 6 ∨ m = 9 ∨ m = 11 then 30
  else 31

/-- Day number (days since 1970-01-01) of a civil date. -/
def daysFromCivil (y m d : Int) : Int :=
  let y' := if m ≤ 2 then y - 1 else y
  let era := (if 0 ≤ y' then y' else y' - 399).ediv 400
  let yoe := y' - era * 400
  let mp := (m + 9).emod 12
  let doy := (153 * mp + 2).ediv 5 + d - 1
  let doe := yoe * 365 + yoe.ediv 4 - yoe.ediv 100 + doy
  era * 146097 + doe - 719468

/-- Civil date (y, m, d) of a day number. -/
def civilFromDays (z0 : Int) : Int × Int × Int :=
  let z := z0 + 719468
  let era := (if 0 ≤ z then z else z - 146096).ediv 146097
  let doe := z - era * 146097
  let yoe := (doe - doe.ediv 1460 + doe.ediv 36524 - doe.ediv 146096).ediv 365
  let y := yoe + era * 400
  let doy := doe - (365 * yoe + yoe.ediv 4 - yoe.ediv 100)
  let mp := (5 * doy + 2).ediv 153
  let d := doy - (153 * mp + 2).ediv 5 + 1
  let m := mp + (if mp < 10 then 3 else -9)
  (if m ≤ 2 then y + 1 else y, m, d)

/-- Day number of the Google-Sheets serial anchor 1899-12-30. -/
def sheetsSerialBase : Int := daysFromCivil 1899 12 30

/-- `datetime.strptime(s, "%m/%d/%Y")` reduced to its date: 1-2 digit
month and day, exactly 4 digit year, `/` separators, full-string match,
calendar validity enforced by the `datetime` constructor. -/
def parse_date_mmddyyyy (s : String) : Option (Int × Int × Int) :=
  match s.data.splitOn '/' with
  | [mPart, dPart, yPart] =>
    if allDigits mPart && mPart.length ≤ 2 && allDigits dPart && dPart.length ≤ 2
        && allDigits yPart && yPart.length == 4 then
      let m : Int := digitsToNat mPart
      let d : Int := digitsToNat dPart
      let y : Int := digitsToNat yPart
      if 1 ≤ m ∧ m ≤ 12 ∧ 1 ≤ d ∧ d ≤ daysInMonth y m then some (y, m, d) else none
    else none
  | _ => none

/-- `datetime.fromisoformat` restricted to the date-only form `YYYY-MM-DD`
(the only ISO shape that can occur in the sheet data). -/
def parseIsoDate (s : String) : Option (Int × Int × Int) :=
  match s.data.splitOn '-' with
  | [yPart, mPart, dPart] =>
    if allDigits yPart && yPart.length == 4 && allDigits mPart && mPart.length == 2
        && allDigits dPart && dPart.length == 2 then
      let y : Int := digitsToNat yPart
      let m : Int := digitsToNat mPart
      let d : Int := digitsToNat dPart
      if 1 ≤ m ∧ m ≤ 12 ∧ 1 ≤ d ∧ d ≤ daysInMonth y m then some (y, m, d) else none
    else none
  | _ => none

def padNat (width n : Nat) : String :=
  let s := toString n
  ⟨List.replicate (width - s.length) '0' ++ s.data⟩

/-- `strftime("%m/%d/%Y")` of a day number. -/
def formatMmddyyyy (dayNum : Int) : String :=
  let (y, m, d) := civilFromDays dayNum
  padNat 2 m.toNat ++ "/" ++ padNat 2 d.toNat ++ "/" ++ padNat 4 y.toNat

/-! ### Sheet cell values -/

/-- A raw cell value as returned by `get_all_records` with
`UNFORMATTED_VALUE` rendering: a number (Google serial for dates) or text. -/
inductive CellVal where
  | num (q : ℚ)
  | str (s : String)
deriving DecidableEq, Repr

/-- `gs_serial_to_datetime` / `excel_date_to_datetime`:
`datetime(1899,12,30) + timedelta(days=serial)`, reduced to its date
(the `timedelta` sum floors fractional serials to the civil day). -/
def gs_serial_to_datetime (serial : ℚ) : Int :=
  sheetsSerialBase + serial.num.ediv serial.den

/-- `to_datetime` from `sheets_utils`: serial number, `MM/DD/YYYY` text,
or ISO text; empty/unparseable raises (modelled by `Except.error`). -/
def to_datetime (v : CellVal) : Except Unit Int :=
  match v with
  | .num q => .ok (gs_serial_to_datetime q)
  | .str s =>
    let t := pyStrip s
    if t = "" then .error ()
    else
      match parse_date_mmddyyyy t with
      | some (y, m, d) => .ok (daysFromCivil y m d)
      | none =>
        match parseIsoDate t with
        | some (y, m, d) => .ok (daysFromCivil y m d)
        | none => .error ()

/-! ### difflib: SequenceMatcher ratio and get_close_matches

The candidate strings are far shorter than 200 characters, so difflib's
autojunk/junk heuristics are inert and `find_longest_match` returns, of
all maximal matching blocks, the one starting earliest in `a`, then
earliest in `b`.  Float ratios are modelled exactly as rationals. -/

def commonPrefixLen : List Char → List Char → Nat
  | x :: xs, y :: ys => if x = y then commonPrefixLen xs ys + 1 else 0
  | _, _ => 0

/-- `find_longest_match` over whole sequences: the longest common
contiguous block, earliest in `a` then earliest in `b` among maximal. -/
def findLongestMatch (a b : List Char) : Nat × Nat × Nat :=
  (List.range a.length).foldl
    (fun best i =>
      (List.range b.length).foldl
        (fun best j =>
          let k := commonPrefixLen (a.drop i) (b.drop j)
          if best.2.2 < k then (i, j, k) else best)
        best)
    (0, 0, 0)

/-- Total size of all matching blocks, recursing left and right of the
longest block; structural on a fuel bounding the length of `a`.  When the
block size `k` is positive, both recursive calls are on strictly shorter
`a`-segments (the block lies inside `a`), so fuel `a.length + 1` never
runs out and the `fuel = 0` branch is unreachable. -/
def matchTotalF : Nat → List Char → List Char → Nat
  | 0, _, _ => 0
  | fuel + 1, a, b =>
    let t := findLongestMatch a b
    if t.2.2 = 0 then 0
    else
      t.2.2 + matchTotalF fuel (a.take t.1) (b.take t.2.1)
        + matchTotalF fuel (a.drop (t.1 + t.2.2)) (b.drop (t.2.1 + t.2.2))

/-- `sum(b.size for b in SequenceMatcher(None, a, b).get_matching_blocks())`. -/
def matchTotal (a b : List Char) : Nat := matchTotalF (a.length + 1) a b

/-- `SequenceMatcher(None, a, b).ratio() = 2*M / (len(a)+len(b))`. -/
def simRatio (a b : List Char) : ℚ :=
  (2 * matchTotal a b : ℚ) / ((a.length + b.length : Nat) : ℚ)

/-- Descending stable insertion used to model `sorted(result, reverse=True)`
on (ratio, candidate) pairs ordered as Python tuples. -/
def insertDescPair (x : ℚ × String) : List (ℚ × String) → List (ℚ × String)
  | [] => [x]
  | y :: ys =>
    if y.1 < x.1 ∨ (y.1 = x.1 ∧ pyStrLt y.2 x.2) then x :: y :: ys
    else y :: insertDescPair x ys

def sortDescPairs : List (ℚ × String) → List (ℚ × String)
  | [] => []
  | x :: xs => insertDescPair x (sortDescPairs xs)

/-- `difflib.get_close_matches(word, possibilities, n, cutoff)`:
candidates whose ratio against `word` meets the cutoff, the `n` largest
by (ratio, candidate) kept (`heapq.nlargest`). -/
def get_close_matches (word : String) (possibilities : List String) (n : Nat) (cutoff : ℚ) :
    List String :=
  let scored := possibilities.filterMap fun x =>
    let r := simRatio x.data word.data
    if cutoff ≤ r then some (r, x) else none
  ((sortDescPairs scored).take n).map (·.2)

/-! ### Remote table model

`get_all_records` is modelled by an environment whose read can fail
(store unavailable) and whose writes either all succeed (recorded in an
operation trace) or all raise.  String messages that Python builds by
interpolation are reproduced up to quoting punctuation; no claim depends
on the elided punctuation. -/

/-- One row-mapping returned by `get_all_records` (header column names
Name, Amount, Category, Created, Date, Notes). -/
structure SRecord where
  name : String
  amount : ℚ
  category : String
  created : String
  date : CellVal
  notes : String
deriving DecidableEq, Repr

/-- A remote write issued against the sheet. -/
inductive SheetOp where
  | deleteRows (startRow endRow : Nat)
  | updateCell (row col : Nat) (value : String)
  | appendRow (row : List CellVal)
  | appendRows (rows : List (List CellVal))
deriving DecidableEq, Repr

/-- The remote store: result of `get_all_records`, and whether remote
writes succeed or raise. -/
structure SheetEnv where
  records : Except Unit (List SRecord)
  writeOk : Bool
deriving Repr

inductive Status where
  | success
  | error
  | notFound
  | multipleMatches
deriving DecidableEq, Repr

/-- Python `sorted` on naturals (stable; duplicates preserved). -/
def insertAsc (x : Nat) : List Nat → List Nat
  | [] => [x]
  | y :: ys => if x ≤ y then x :: y :: ys else y :: insertAsc x ys

def pySortedNat : List Nat → List Nat
  | [] => []
  | x :: xs => insertAsc x (pySortedNat xs)

/-! ### delete_transaction_tool -/

/-- One entry of `deleted_items` (the raw row detail captured before deletion). -/
structure DeletedItem where
  name : String
  amount : ℚ
  category : String
  date : CellVal
  notes : String
deriving DecidableEq, Repr

structure DeleteResult where
  status : Status
  message : String
  deleted_count : Nat
  deleted_items : List DeletedItem
  matches_found : Option Nat := none
deriving DecidableEq, Repr

/-- The fuzzy ∪ substring name-match set of `delete_transaction_tool`
(list with possible duplicates; only membership and emptiness are
observed, matching the Python set). -/
def delete_matched_names (name : String) (all_names : List String) (cutoff : ℚ) : List String :=
  get_close_matches name all_names 10 cutoff
    ++ all_names.filter fun n => pySubstr (pyStrip (pyLower name)) (pyLower n)

/-- The row-scan loop of `delete_transaction_tool`: starting at sheet row
`i`, collect each row whose stripped name is in the matched set and which
passes the optional date and category filters (a date-parse failure on
either side skips the row). -/
def delete_scan (matched : List String) (date_str : Option String) (category : Option String) :
    Nat → List SRecord → List (Nat × DeletedItem)
  | _, [] => []
  | i, r :: rest =>
    let keep :=
      matched.contains (pyStrip r.name) &&
      -- `if date_str:` — None and "" are both falsy
      (match date_str with
       | none => true
       | some ds =>
         if ds = "" then true
         else
           match to_datetime r.date, parse_date_mmddyyyy ds with
           | .ok recDay, some (y, m, d) => recDay == daysFromCivil y m d
           | _, _ => false) &&
      (match category with
       | none => true
       | some c =>
         if c = "" then true
         else pyStrip (pyLower r.category) == pyStrip (pyLower c))
    (if keep then [(i, ⟨pyStrip r.name, r.amount, r.category, r.date, r.notes⟩)] else [])
      ++ delete_scan matched date_str category (i + 1) rest

/-- Qualifying (row index, detail) pairs of a delete call. -/
def delete_candidates (records : List SRecord) (name : String) (date_str : Option String)
    (category : Option String) (cutoff : ℚ) : List (Nat × DeletedItem) :=
  let all_names := records.map fun r => pyStrip r.name
  delete_scan (delete_matched_names name all_names cutoff) date_str category 2 records

/-- The contiguous-range grouping loop: `start`/`end` accumulator over the
remaining sorted row numbers. -/
def groupRanges (s e : Nat) : List Nat → List (Nat × Nat)
  | [] => [(s, e)]
  | r :: rest => if r = e + 1 then groupRanges s r rest else (s, e) :: groupRanges r r rest

def groupRangesTop : List Nat → List (Nat × Nat)
  | [] => []
  | h :: t => groupRanges h h t

/-- `delete_transaction_tool`: fuzzy/substring name match, optional exact
date and category narrowing, multiple-match safety gate, contiguous-range
deletion in descending order; every failure is caught and converted to a
structured error result. -/
def delete_transaction_tool (env : SheetEnv) (name : String)
    (date_str : Option String := none) (category : Option String := none)
    (fuzzy_threshold : ℚ := 3/5) (delete_all_matches : Bool := false) :
    DeleteResult × List SheetOp :=
  match env.records with
  | .error _ => (⟨.error, "Error deleting transaction", 0, [], none⟩, [])
  | .ok records =>
    if records.isEmpty then
      (⟨.error, "No data found in sheet", 0, [], none⟩, [])
    else
      let all_names := records.map fun r => pyStrip r.name
      let matched_names := delete_matched_names name all_names fuzzy_threshold
      if matched_names.isEmpty then
        (⟨.notFound, "No transactions found matching " ++ name, 0, [], none⟩, [])
      else
        let pairs := delete_candidates records name date_str category fuzzy_threshold
        let rows_to_delete := pairs.map Prod.fst
        let deleted_items := pairs.map Prod.snd
        if rows_to_delete.isEmpty then
          (⟨.notFound, "Found similar names but no matches", 0, [], none⟩, [])
        else
          if 1 < rows_to_delete.length && !delete_all_matches then
            (⟨.multipleMatches,
              "Found " ++ toString rows_to_delete.length ++
                " matches. Set delete_all_matches=True to delete all, or add date/category filters to narrow down.",
              0, deleted_items, some rows_to_delete.length⟩, [])
          else
            if env.writeOk then
              let ranges := groupRangesTop (pySortedNat rows_to_delete)
              (⟨.success,
                "Successfully deleted " ++ toString rows_to_delete.length ++ " transaction(s)",
                rows_to_delete.length, deleted_items, none⟩,
               ranges.reverse.map fun p => SheetOp.deleteRows p.1 p.2)
            else
              (⟨.error, "Error deleting transaction", 0, [], none⟩, [])

/-! ### update_transaction_tool -/

structure UpdateResult where
  status : Status
  message : String
deriving DecidableEq, Repr

/-- The stale category set local to `update_transaction.py` (it omits
Shopping, unlike the shared set in `sheets_utils.py`). -/
def VALID_CATEGORIES_update : List String :=
  ["Food", "Health & Wellness", "Snack", "Bills & Utilities",
   "Entertainment", "Transport", "Education", "Charity"]

/-- The shared category set of `sheets_utils.py` (used by insertion). -/
def VALID_CATEGORIES : List String :=
  ["Food", "Health & Wellness", "Snack", "Bills & Utilities",
   "Entertainment", "Transport", "Education", "Charity", "Shopping"]

/-- `re.sub(r'[<>\"\'=;]', '', s).strip()`. -/
def pySanitize (s : String) : String :=
  pyStrip ⟨s.data.filter fun c =>
    !(c = '<' ∨ c = '>' ∨ c = '"' ∨ c = '\'' ∨ c = '=' ∨ c = ';')⟩

def insertStrAsc (x : String) : List String → List String
  | [] => [x]
  | y :: ys => if pyStrLt y x then y :: insertStrAsc x ys else x :: y :: ys

/-- Python `sorted` on strings (code-point lexicographic). -/
def pySortedStr : List String → List String
  | [] => []
  | x :: xs => insertStrAsc x (pySortedStr xs)

def update_valid_fields : List String :=
  ["Name", "Amount", "Category", "Created", "Date", "Notes"]

/-- Per-field validation/sanitization of the new value in
`update_transaction_tool` (the `Created` field has no validation branch). -/
def updateValidateValue (field_cap new_value : String) : Except String String :=
  if field_cap = "Amount" then
    match pyParseFloat new_value with
    | none => .error "Amount must be a valid number"
    | some v =>
      if v ≤ 0 then .error "Amount must be positive"
      else if 100000000 < v then .error "Amount exceeds maximum limit (100,000,000 IDR)"
      else .ok new_value
  else if field_cap = "Category" then
    let nv := pyStrip new_value
    if VALID_CATEGORIES_update.contains nv then .ok nv
    else .error ("Invalid category. Must be one of: "
      ++ String.intercalate ", " (pySortedStr VALID_CATEGORIES_update))
  else if field_cap = "Name" then
    if 100 < new_value.data.length then .error "Name must be 100 characters or less"
    else
      let nv := pySanitize new_value
      if nv = "" then .error "Name contains only invalid characters" else .ok nv
  else if field_cap = "Notes" then
    if 500 < new_value.data.length then .error "Notes must be 500 characters or less"
    else .ok (pySanitize new_value)
  else if field_cap = "Date" then
    match parse_date_mmddyyyy new_value with
    | some (y, m, d) =>
      if y < 2020 ∨ 2030 < y then .error "Date must be between 2020 and 2030"
      else .ok (formatMmddyyyy (daysFromCivil y m d))
    | none => .error "Date must be in MM/DD/YYYY format"
  else .ok new_value

/-- The custom per-row date comparison of `update_transaction_tool`:
numeric serials are rendered `MM/DD/YYYY` and compared as text; strings
are compared verbatim, then re-parsed and re-rendered. -/
def updDateMatch (v : CellVal) (ds : String) : Bool :=
  match v with
  | .num q => formatMmddyyyy (gs_serial_to_datetime q) == ds
  | .str s0 =>
    let record_date := pyStrip s0
    if record_date == ds then true
    else
      match parse_date_mmddyyyy record_date with
      | some (y, m, d) => formatMmddyyyy (daysFromCivil y m d) == ds
      | none => false

/-- Whether a row is written by the update loop: name in the matched set
and, when a (truthy) date filter is given, the row's date matched it. -/
def updDoUpdate (matched : List String) (date_str : Option String) (r : SRecord) : Bool :=
  matched.contains (pyStrip r.name) &&
  (match date_str with
   | none => true
   | some ds => if ds = "" then true else updDateMatch r.date ds)

/-- Sheet row indices (starting at 2) that the update loop writes. -/
def update_qualifying_rows (matched : List String) (date_str : Option String) :
    Nat → List SRecord → List Nat
  | _, [] => []
  | i, r :: rest =>
    (if updDoUpdate matched date_str r then [i] else [])
      ++ update_qualifying_rows matched date_str (i + 1) rest

/-- The row loop of `update_transaction_tool`: one `update_cell` remote
write per qualifying row (a write failure raises out of the loop). -/
def update_loop (writeOk : Bool) (matched : List String) (date_str : Option String)
    (col : Nat) (new_value : String) : Nat → List SRecord → Except Unit (Nat × List SheetOp)
  | _, [] => .ok (0, [])
  | i, r :: rest =>
    if updDoUpdate matched date_str r then
      if writeOk then
        match update_loop writeOk matched date_str col new_value (i + 1) rest with
        | .ok (n, ops) => .ok (n + 1, SheetOp.updateCell i col new_value :: ops)
        | .error e => .error e
      else .error ()
    else update_loop writeOk matched date_str col new_value (i + 1) rest

/-- The fuzzy ∪ substring matched-name set of `update_transaction_tool`
(`get_close_matches` with `n=5` here). -/
def update_matches (records : List SRecord) (name : String) (cutoff : ℚ) : List String :=
  let names := records.map fun r => pyStrip r.name
  get_close_matches name names 5 cutoff
    ++ names.filter fun n => pySubstr (pyStrip (pyLower name)) (pyLower n)

/-- `update_transaction_tool`: field validation, fuzzy/substring name
resolution, optional exact-date disambiguation, one single-cell remote
write per qualifying row.  The remote read and writes are not wrapped in
any handler, so a store failure escapes as `Except.error`. -/
def update_transaction_tool (env : SheetEnv) (name field new_value : String)
    (date_str : Option String := none) (fuzzy_threshold : ℚ := 3/5) :
    Except Unit (UpdateResult × List SheetOp) :=
  let field_cap := pyCapitalize field
  if !update_valid_fields.contains field_cap then
    .ok (⟨.error, "Invalid field " ++ field ++ ". Must be one of "
      ++ String.intercalate ", " update_valid_fields⟩, [])
  else
    match updateValidateValue field_cap new_value with
    | .error msg => .ok (⟨.error, msg⟩, [])
    | .ok new_value' =>
      if name = "" ∨ 100 < name.data.length then
        .ok (⟨.error, "Search name must be between 1-100 characters"⟩, [])
      else
        match env.records with
        | .error e => .error e
        | .ok records =>
          let target_col_index := update_valid_fields.indexOf field_cap + 1
          let matched := update_matches records name fuzzy_threshold
          if matched.isEmpty then
            .ok (⟨.notFound, "No match found similar to " ++ name⟩, [])
          else
            match update_loop env.writeOk matched date_str target_col_index new_value' 2 records with
            | .error e => .error e
            | .ok (updated_rows, ops) =>
              if updated_rows = 0 then
                .ok (⟨.notFound, "Found similar name(s), but no matching date"⟩, ops)
              else
                .ok (⟨.success, "Updated " ++ toString updated_rows ++ " row(s): "
                  ++ field ++ " = " ++ new_value'⟩, ops)

/-! ### check_data_exists_tool -/

/-- First-occurrence deduplication (pandas `unique`, Python set order as
canonicalized by later sorting). -/
def uniqueKeepFirst (l : List String) : List String :=
  l.foldl (fun acc x => if acc.contains x then acc else acc ++ [x]) []

/-- A result/detail row with its `Date` rendered `MM/DD/YYYY`. -/
structure FindRow where
  name : String
  amount : ℚ
  category : String
  created : String
  date : String
  notes : String
deriving DecidableEq, Repr

structure FindResult where
  exists_ : Bool
  match_count : Nat
  matched_names : List String
  details : List FindRow
  message : Option String := none
deriving DecidableEq, Repr

def emptyFindResult (msg : Option String := none) : FindResult :=
  ⟨false, 0, [], [], msg⟩

/-- The date selector resolution of `check_data_exists_tool`:
`days_ago` takes precedence (checked first), else a single date, else the
start/end range; returns (start, end, single) as day numbers. -/
def checkDateSelectors (today : Int) (date start_date end_date days_ago : String) :
    Option Int × Option Int × Option Int :=
  if pyStrip days_ago ≠ "" then
    match pyParseInt days_ago with
    | some offset => (some (today - offset), some today, none)
    | none => (none, none, none)
  else if pyStrip date ≠ "" then
    match parse_date_mmddyyyy date with
    | some (y, m, d) => (none, none, some (daysFromCivil y m d))
    | none => (none, none, none)
  else if pyStrip start_date ≠ "" ∧ pyStrip end_date ≠ "" then
    match parse_date_mmddyyyy start_date, parse_date_mmddyyyy end_date with
    | some (y, m, d), some (y', m', d') =>
      (some (daysFromCivil y m d), some (daysFromCivil y' m' d'), none)
    | _, _ => (none, none, none)
  else (none, none, none)

/-- `check_data_exists_tool`: pandas pipeline over the rows — drop rows
without parseable dates, apply the date selector, exact category, then
fuzzy ∪ substring name matching over comma-separated alternatives.  The
remote read is unguarded, so a store failure escapes. -/
def check_data_exists_tool (env : SheetEnv) (name : String := "") (category : String := "")
    (date : String := "") (start_date : String := "") (end_date : String := "")
    (days_ago : String := "") (fuzzy_threshold : ℚ := 3/5) (today : Int := 0) :
    Except Unit FindResult :=
  match env.records with
  | .error e => .error e
  | .ok records =>
    if records.isEmpty then .ok (emptyFindResult)
    else
      let withDates := records.filterMap fun r =>
        match to_datetime r.date with
        | .ok d => some (r, d)
        | .error _ => none
      if withDates.isEmpty then
        .ok (emptyFindResult (some "No rows with parseable Date values"))
      else
        let (start_dt, end_dt, single_date) :=
          checkDateSelectors today date start_date end_date days_ago
        let afterDate := withDates.filter fun rd =>
          (match single_date with
           | some sd => rd.2 == sd
           | none => true) &&
          (match start_dt, end_dt with
           | some s, some e => s ≤ rd.2 && rd.2 ≤ e
           | _, _ => true)
        if afterDate.isEmpty then .ok (emptyFindResult)
        else
          let afterCat :=
            if pyStrip category ≠ "" then
              afterDate.filter fun rd =>
                pyLower (pyStrip rd.1.category) == pyLower (pyStrip category)
            else afterDate
          if afterCat.isEmpty then .ok (emptyFindResult)
          else
            let all_names := uniqueKeepFirst (afterCat.map fun rd => pyStrip rd.1.name)
            let names_to_check :=
              if pyStrip name ≠ "" then
                ((name.data.splitOn ',').map fun n => pyStrip ⟨n⟩).filter (· ≠ "")
              else []
            let afterName :=
              if !names_to_check.isEmpty then
                let matchedSet := names_to_check.flatMap fun n =>
                  get_close_matches n all_names 5 fuzzy_threshold
                    ++ all_names.filter fun x => pySubstr (pyLower n) (pyLower x)
                afterCat.filter fun rd => matchedSet.contains (pyStrip rd.1.name)
              else afterCat
            if afterName.isEmpty then .ok (emptyFindResult)
            else
              let details := afterName.map fun rd =>
                (⟨rd.1.name, rd.1.amount, rd.1.category, rd.1.created,
                  formatMmddyyyy rd.2, rd.1.notes⟩ : FindRow)
              let matchedOut := pySortedStr (uniqueKeepFirst
                ((details.filter fun r => r.name ≠ "").map fun r => pyStrip r.name))
              .ok ⟨details.length != 0, details.length, matchedOut, details, none⟩

/-! ### analyze_expenses_tool -/

inductive AnalyzeResult where
  /-- the `error: unsupported metric` dictionary -/
  | unsupported (msg : String)
  /-- the `exists: False, value: 0, details: []` dictionary -/
  | noData
  /-- the populated result dictionary -/
  | found (metric : String) (value : ℚ) (row_count : Nat) (details : List FindRow)
deriving DecidableEq, Repr

/-- `analyze_expenses_tool`: metric over the amounts of rows surviving the
filters.  Unlike `check_data_exists_tool`, the last-N-days filter and the
explicit start/end range are two independent `if`s — both are applied when
both are supplied.  The remote read is unguarded; an empty record list
makes the column access raise (both escape). -/
def analyze_expenses_tool (env : SheetEnv) (metric : String) (category : String := "")
    (name : String := "") (start_date : String := "") (end_date : String := "")
    (days : String := "") (today : Int := 0) :
    Except Unit AnalyzeResult :=
  let metricN := pyStrip (pyLower metric)
  if !(["sum", "count", "average"].contains metricN) then
    .ok (.unsupported ("Unsupported metric " ++ metric))
  else
    match env.records with
    | .error e => .error e
    | .ok records =>
      if records.isEmpty then .error ()
      else
        let withDates := records.filterMap fun r =>
          match to_datetime r.date with
          | .ok d => some (r, d)
          | .error _ => none
        let afterDays :=
          if pyStrip days ≠ "" then
            match pyParseInt days with
            | some d => withDates.filter fun rd => today - d ≤ rd.2
            | none => withDates
          else withDates
        let afterRange :=
          if start_date ≠ "" ∧ end_date ≠ "" then
            match parse_date_mmddyyyy start_date, parse_date_mmddyyyy end_date with
            | some (y, m, d), some (y', m', d') =>
              afterDays.filter fun rd =>
                daysFromCivil y m d ≤ rd.2 && rd.2 ≤ daysFromCivil y' m' d'
            | _, _ => afterDays
          else afterDays
        let afterCat :=
          if pyStrip category ≠ "" then
            afterRange.filter fun rd =>
              pyLower (pyStrip rd.1.category) == pyLower (pyStrip category)
          else afterRange
        let afterName :=
          if pyStrip name ≠ "" then
            afterCat.filter fun rd =>
              pySubstr (pyStrip (pyLower name)) (pyLower rd.1.name)
          else afterCat
        if afterName.isEmpty then .ok .noData
        else
          let amounts := afterName.map fun rd => rd.1.amount
          let value : ℚ :=
            if metricN = "sum" then amounts.sum
            else if metricN = "count" then (amounts.length : ℚ)
            else amounts.sum / (amounts.length : ℚ)
          let details := afterName.map fun rd =>
            (⟨rd.1.name, rd.1.amount, rd.1.category, rd.1.created,
              formatMmddyyyy rd.2, rd.1.notes⟩ : FindRow)
          .ok (.found metricN value details.length details)

/-! ### add_transaction_tool (single) -/

structure AddResult where
  status : Status
  message : String
deriving DecidableEq, Repr

/-- `add_transaction_tool`: validate and sanitize every field, then one
`append_row` remote write; the whole body is wrapped in a handler, so any
failure becomes a structured error result.  `created_at` and `today_str`
stand for the wall-clock values read inside the call. -/
def add_transaction_tool (env : SheetEnv) (name : String) (amount : ℚ) (category : String)
    (date_str : Option String := none) (notes : String := "")
    (created_at : String := "") (today_str : String := "") :
    AddResult × List SheetOp :=
  if name = "" then (⟨.error, "Name is required and must be text"⟩, [])
  else if 100 < name.data.length then (⟨.error, "Name must be 100 characters or less"⟩, [])
  else
    let name' := pySanitize name
    if name' = "" then (⟨.error, "Name contains only invalid characters"⟩, [])
    else if amount ≤ 0 then (⟨.error, "Amount must be positive"⟩, [])
    else if 100000000 < amount then
      (⟨.error, "Amount exceeds maximum limit (100,000,000 IDR)"⟩, [])
    else
      let category' := pyStrip category
      if !VALID_CATEGORIES.contains category' then
        (⟨.error, "Invalid category. Must be one of: "
          ++ String.intercalate ", " (pySortedStr VALID_CATEGORIES)⟩, [])
      else
        let dateRes : Except AddResult String :=
          match date_str with
          | some ds =>
            if ds = "" then .ok today_str
            else
              match parse_date_mmddyyyy ds with
              | some (y, m, d) =>
                if y < 2020 ∨ 2030 < y then
                  .error ⟨.error, "Date must be between 2020 and 2030"⟩
                else .ok (formatMmddyyyy (daysFromCivil y m d))
              | none =>
                .error ⟨.error, "Date must be in MM/DD/YYYY format (e.g., 01/15/2025)"⟩
          | none => .ok today_str
        match dateRes with
        | .error r => (r, [])
        | .ok date' =>
          if 500 < notes.data.length then
            (⟨.error, "Notes must be 500 characters or less"⟩, [])
          else
            let notes' := pySanitize notes
            if env.writeOk then
              (⟨.success, "Transaction added: " ++ name' ++ " on " ++ date'⟩,
               [SheetOp.appendRow
                 [.str name', .num amount, .str category', .str created_at,
                  .str date', .str notes']])
            else
              (⟨.error, "Failed to add transaction. Please try again."⟩, [])

/-! ### add_transactions_tool (batch) -/

/-- A JSON value occurring as a field of a batch item. -/
inductive JVal where
  | jstr (s : String)
  | jint (n : Int)
  | jfloat (q : ℚ)
  | jnull
  | jbool (b : Bool)
deriving DecidableEq, Repr

/-- Python truthiness of a JSON value. -/
def jFalsy : JVal → Bool
  | .jstr s => s = ""
  | .jint n => n = 0
  | .jfloat q => q = 0
  | .jnull => true
  | .jbool b => !b

/-- Python `str()` of a JSON value (float rendering approximated by the
exact rational's representation; never a valid category either way). -/
def pyJStr : JVal → String
  | .jstr s => s
  | .jint n => toString n
  | .jfloat q => toString q
  | .jnull => "None"
  | .jbool b => if b then "True" else "False"

def jTypeName : JVal → String
  | .jstr _ => "str"
  | .jint _ => "int"
  | .jfloat _ => "float"
  | .jnull => "NoneType"
  | .jbool _ => "bool"

/-- One parsed element of the batch JSON array: either not a dict, or a
dict whose fields default to `""`/`None` as in the source (`date_str` and
`notes` are modelled at their interface type, string). -/
inductive TxnItem where
  | notDict
  | item (name amount category : JVal) (date_str notes : String)
deriving DecidableEq, Repr

/-- The per-item validation/sanitization of `add_transactions_tool`:
error message, or the row of cells to append. -/
def validateTxn (created_at today_str : String) : TxnItem → Except String (List CellVal)
  | .notDict => .error "Item must be a dict"
  | .item n a c ds nt =>
    if jFalsy n then .error "Name is required and must be text"
    else
      match n with
      | .jstr s =>
        if 100 < s.data.length then .error "Name must be 100 characters or less"
        else
          let name' := pySanitize s
          if name' = "" then .error "Name contains only invalid characters"
          else
            -- amount: isinstance((int, float)); bool is an int subclass
            let amountVal : Option ℚ :=
              match a with
              | .jint k => some (k : ℚ)
              | .jfloat q => some q
              | .jbool b => some (if b then 1 else 0)
              | _ => none
            match amountVal with
            | none => .error ("Amount must be a number, got " ++ jTypeName a)
            | some v =>
              if v ≤ 0 then .error "Amount must be positive"
              else if 100000000 < v then
                .error "Amount exceeds maximum limit (100,000,000 IDR)"
              else
                let category' := pyStrip (pyJStr c)
                if !VALID_CATEGORIES.contains category' then
                  .error ("Invalid category " ++ category')
                else
                  let dateRes : Except String String :=
                    if ds = "" then .ok today_str
                    else
                      match parse_date_mmddyyyy ds with
                      | some (y, m, d) =>
                        if y < 2020 ∨ 2030 < y then
                          .error "Date must be between 2020 and 2030"
                        else .ok (formatMmddyyyy (daysFromCivil y m d))
                      | none => .error "Date must be in MM/DD/YYYY format"
                  match dateRes with
                  | .error m => .error m
                  | .ok date' =>
                    if 500 < nt.data.length then
                      .error "Notes must be 500 characters or less"
                    else
                      .ok [.str name', .num v, .str category', .str created_at,
                           .str date', .str (pySanitize nt)]
      | _ => .error "Name is required and must be text"

/-- The accumulation loop of `add_transactions_tool`: per-index error
entries and rows to append, in input order. -/
def add_many_loop (created_at today_str : String) :
    Nat → List TxnItem → List (Nat × String) × List (List CellVal)
  | _, [] => ([], [])
  | idx, t :: rest =>
    let (errs, rows) := add_many_loop created_at today_str (idx + 1) rest
    match validateTxn created_at today_str t with
    | .error m => ((idx, m) :: errs, rows)
    | .ok row => (errs, row :: rows)

structure AddManyResult where
  status : Status
  message : String
  added_count : Option Nat := none
  error_count : Option Nat := none
  errors : Option (List (Nat × String)) := none
deriving DecidableEq, Repr

/-- `add_transactions_tool`: the JSON text is modelled by its parse result
(`none` = malformed JSON or not a list).  Validates each item
independently, appends all valid rows in one `append_rows` call (wrapped
in its own handler), and reports per-index errors. -/
def add_transactions_tool (env : SheetEnv) (transactions : Option (List TxnItem))
    (created_at : String := "") (today_str : String := "") :
    AddManyResult × List SheetOp :=
  match transactions with
  | none => (⟨.error, "transactions_json must be a valid JSON array string", none, none, none⟩, [])
  | some txns =>
    if txns.isEmpty then
      (⟨.error, "transactions_json must contain a non-empty JSON array", none, none, none⟩, [])
    else if 50 < txns.length then
      (⟨.error, "Maximum 50 transactions per batch", none, none, none⟩, [])
    else
      let (errs, rows) := add_many_loop created_at today_str 0 txns
      if rows.isEmpty then
        (⟨.error, "No valid transactions to add", some 0, some errs.length, some errs⟩, [])
      else if env.writeOk then
        (⟨.success, "Added " ++ toString rows.length ++ " transaction(s)",
          some rows.length, some errs.length, some errs⟩, [.appendRows rows])
      else
        (⟨.error, "Failed to add transactions. Please try again.", none, none, none⟩, [])

/-! ### gmail_listener.process_notification -/

/-- Per-mailbox tracker state: last seen history id and the processed-id
set (a Python set, modelled in insertion order). -/
structure GmailState where
  last_history_id : Option Nat
  processed_messages : List String
deriving DecidableEq, Repr

/-- The mailbox collaborator: result of the bootstrap
`messages().list(maxResults=1)` lookup, and of the `history().list`
enumeration — records of `messagesAdded` entries `(message id, labelIds)`. -/
structure GmailEnv where
  latest : Except Unit (Option String)
  history : Except Unit (List (List (String × List String)))

/-- Add to the processed set, then evict an unordered half (modelled as
the 250 oldest) once the cap of 500 is exceeded. -/
def seenAdd (processed : List String) (msgId : String) : List String :=
  let p := processed ++ [msgId]
  if 500 < p.length then p.drop 250 else p

/-- The message loop of the enumeration path: skip wrong-label ids, skip
already-processed ids, otherwise record and emit. -/
def process_msgs (label : Option String) :
    List (String × List String) → List String → List String × List String
  | [], processed => (processed, [])
  | (msgId, labels) :: rest, processed =>
    if (match label with
        | some p => !labels.contains p
        | none => false) then
      process_msgs label rest processed
    else if processed.contains msgId then
      process_msgs label rest processed
    else
      let step := process_msgs label rest (seenAdd processed msgId)
      (step.1, msgId :: step.2)

/-- All message ids carried by the enumeration window, in order. -/
def windowIds (env : GmailEnv) : List String :=
  match env.history with
  | .ok recs => (recs.flatMap fun r => r).map Prod.fst
  | .error _ => []

/-- `process_notification`: bootstrap on the first event (fetch the single
latest item), drop a cursor not strictly greater than the held one,
otherwise enumerate the window and emit unseen qualifying ids; the cursor
is advanced even when the enumeration fails.  Returns the new state and
the emissions (calls to `process_payment_email`), which never raise. -/
def process_notification (label : Option String) (env : GmailEnv) (history_id : Nat)
    (st : GmailState) : GmailState × List String :=
  match st.last_history_id with
  | none =>
    match env.latest with
    | .error _ => (⟨some history_id, st.processed_messages⟩, [])
    | .ok none => (⟨some history_id, st.processed_messages⟩, [])
    | .ok (some msgId) =>
      if st.processed_messages.contains msgId then
        (⟨some history_id, st.processed_messages⟩, [])
      else
        (⟨some history_id, st.processed_messages ++ [msgId]⟩, [msgId])
  | some last =>
    if history_id ≤ last then (st, [])
    else
      match env.history with
      | .error _ => (⟨some history_id, st.processed_messages⟩, [])
      | .ok recs =>
        let step := process_msgs label (recs.flatMap fun r => r) st.processed_messages
        (⟨some history_id, step.1⟩, step.2)

/-! ### Helper lemmas -/

theorem delete_scan_nil_matched (ds cat : Option String) (i : Nat) (l : List SRecord) :
    delete_scan [] ds cat i l = [] := by
  induction l generalizing i with
  | nil => rfl
  | cons r rest ih => simp [delete_scan, ih]

theorem delete_candidates_nil (name : String) (ds cat : Option String) (thr : ℚ) :
    delete_candidates [] name ds cat thr = [] := by
  simp [delete_candidates, delete_scan]

theorem delete_candidates_empty_of_no_match (recs : List SRecord) (name : String)
    (ds cat : Option String) (thr : ℚ)
    (h : (delete_matched_names name (recs.map fun r => pyStrip r.name) thr).isEmpty = true) :
    delete_candidates recs name ds cat thr = [] := by
  rw [List.isEmpty_iff] at h
  rw [delete_candidates]
  rw [h, delete_scan_nil_matched]

/-! ### C10 -/

/-- C10: a delete call against a table with no data rows returns the
status-`error` result with message "No data found in sheet" and
`deleted_count = 0` (not the semantic `not_found` status), and performs
no mutation. -/
theorem c10_delete_empty_table_errors (env : SheetEnv) (name : String)
    (ds cat : Option String) (thr : ℚ) (bulk : Bool)
    (hrec : env.records = .ok []) :
    (delete_transaction_tool env name ds cat thr bulk).1 =
      ⟨.error, "No data found in sheet", 0, [], none⟩ ∧
    (delete_transaction_tool env name ds cat thr bulk).1.status ≠ .notFound ∧
    (delete_transaction_tool env name ds cat thr bulk).2 = [] := by
  simp [delete_transaction_tool, hrec]

/-- C10 witness: concrete empty-table delete. -/
theorem c10_witness :
    (delete_transaction_tool ⟨.ok [], true⟩ "coffee" none none (3/5) false).1 =
      ⟨.error, "No data found in sheet", 0, [], none⟩ :=
  (c10_delete_empty_table_errors ⟨.ok [], true⟩ "coffee" none none (3/5) false rfl).1

/-! ### C5 -/

/-- C5: the claim says "Shopping" passes the category validation of
`update_field` (per the same enumerated set as insertion).  The code is
wrong: `update_transaction.py` carries its own stale `VALID_CATEGORIES`
that omits "Shopping", so the update rejects a category which the shared
`sheets_utils.VALID_CATEGORIES` (used by insertion) accepts, while every
one of the eight categories in the stale set passes. -/
theorem c5_update_shopping_rejected :
    (∀ env : SheetEnv, update_transaction_tool env "x" "Category" "Shopping" none (3/5) =
      .ok (⟨.error, "Invalid category. Must be one of: Bills & Utilities, Charity, Education, Entertainment, Food, Health & Wellness, Snack, Transport"⟩, [])) ∧
    VALID_CATEGORIES.contains "Shopping" = true ∧
    VALID_CATEGORIES_update.contains "Shopping" = false ∧
    VALID_CATEGORIES_update.all
      (fun c => decide (updateValidateValue "Category" c = .ok c)) = true := by
  refine ⟨fun env => rfl, by decide, by decide, by decide⟩

/-! ### C3 -/

theorem update_loop_spec (matched : List String) (ds : Option String) (col : Nat)
    (v : String) (i : Nat) (recs : List SRecord) :
    update_loop true matched ds col v i recs =
      .ok ((update_qualifying_rows matched ds i recs).length,
        (update_qualifying_rows matched ds i recs).map fun j => SheetOp.updateCell j col v) := by
  induction recs generalizing i with
  | nil => rfl
  | cons r rest ih =>
    by_cases h : updDoUpdate matched ds r = true
    · simp [update_loop, update_qualifying_rows, h, ih]
    · simp only [Bool.not_eq_true] at h
      simp [update_loop, update_qualifying_rows, h, ih]

/-- C3 (amended): an `update_field` call that reaches the row loop writes
each qualifying row through its own `update_cell` single-cell remote call
— one remote write per qualifying row, with no batch write operation —
rather than one batched write for all qualifying rows. -/
theorem c3_update_writes_per_row (env : SheetEnv) (recs : List SRecord)
    (name field new_value : String) (ds : Option String) (thr : ℚ) (v : String)
    (hrec : env.records = .ok recs) (hw : env.writeOk = true)
    (hf : update_valid_fields.contains (pyCapitalize field) = true)
    (hv : updateValidateValue (pyCapitalize field) new_value = .ok v)
    (hn : ¬(name = "" ∨ 100 < name.data.length))
    (hm : (update_matches recs name thr).isEmpty = false) :
    ∃ r : UpdateResult,
      update_transaction_tool env name field new_value ds thr =
        .ok (r, (update_qualifying_rows (update_matches recs name thr) ds 2 recs).map
          fun j => SheetOp.updateCell j (update_valid_fields.indexOf (pyCapitalize field) + 1) v) := by
  rw [update_transaction_tool]
  rw [hf]
  simp only [Bool.not_true, Bool.false_eq_true, if_false, hv]
  rw [if_neg hn, hrec]
  simp only [hm, Bool.false_eq_true, if_false]
  rw [hw, update_loop_spec]
  by_cases h0 : (update_qualifying_rows (update_matches recs name thr) ds 2 recs).length = 0
  · exact ⟨⟨.notFound, "Found similar name(s), but no matching date"⟩, by simp [h0]⟩
  · exact ⟨⟨.success, "Updated "
      ++ toString (update_qualifying_rows (update_matches recs name thr) ds 2 recs).length
      ++ " row(s): " ++ field ++ " = " ++ v⟩, by simp [h0]⟩

/-- C3 witness: a concrete call with two qualifying rows issues exactly
the two per-row single-cell writes given by the amended statement. -/
theorem c3_witness :
    ∃ r : UpdateResult,
      update_transaction_tool
        ⟨.ok [⟨"Coffee", 25000, "Food", "", .str "11/14/2025", ""⟩,
              ⟨"Coffee Latte", 30000, "Food", "", .num 45976, ""⟩,
              ⟨"Bread", 9000, "Food", "", .str "11/16/2025", ""⟩], true⟩
        "coffee" "Amount" "5" none (3/5) =
      .ok (r, [SheetOp.updateCell 2 2 "5", SheetOp.updateCell 3 2 "5"]) := by
  obtain ⟨r, hr⟩ := c3_update_writes_per_row
    ⟨.ok [⟨"Coffee", 25000, "Food", "", .str "11/14/2025", ""⟩,
          ⟨"Coffee Latte", 30000, "Food", "", .num 45976, ""⟩,
          ⟨"Bread", 9000, "Food", "", .str "11/16/2025", ""⟩], true⟩
    [⟨"Coffee", 25000, "Food", "", .str "11/14/2025", ""⟩,
     ⟨"Coffee Latte", 30000, "Food", "", .num 45976, ""⟩,
     ⟨"Bread", 9000, "Food", "", .str "11/16/2025", ""⟩]
    "coffee" "Amount" "5" none (3/5) "5" rfl rfl (by decide) (by decide) (by decide) (by decide)
  refine ⟨r, ?_⟩
  rw [hr]
  rfl

/-- C3 counterexample: on a store holding two rows matching "coffee", the
update issues two separate `update_cell` remote writes (its full trace),
not a single batched write call. -/
theorem c3_counterexample :
    update_transaction_tool
      ⟨.ok [⟨"Coffee", 25000, "Food", "", .str "11/14/2025", ""⟩,
            ⟨"Coffee Latte", 30000, "Food", "", .num 45976, ""⟩,
            ⟨"Bread", 9000, "Food", "", .str "11/16/2025", ""⟩], true⟩
      "coffee" "Amount" "5" none (3/5) =
    .ok (⟨.success, "Updated 2 row(s): Amount = 5"⟩,
         [SheetOp.updateCell 2 2 "5", SheetOp.updateCell 3 2 "5"]) := by
  rfl

/-! ### C6 -/

/-- C6: the claim says that in both find and analyze a last-N-days filter
supplied together with an explicit start/end range takes precedence and
the range does not further restrict the result.  Find honors this (its
selectors form an if/elif chain), but analyze applies the two filters
independently (two separate ifs), so the range further restricts the
result — contradicting the code's own docstring ("The days filter
overrides start_date/end_date if both are provided").  Concretely, a row
dated 10/10/2025 with today = 10/12/2025, days = 30 and range
09/30–10/05/2025: find returns it; analyze filters it out; analyze with
the days filter alone keeps it. -/
theorem c6_analyze_range_not_overridden :
    check_data_exists_tool ⟨.ok [⟨"Groceries", 50000, "Food", "", .str "10/10/2025", ""⟩], true⟩
        "" "" "" "09/30/2025" "10/05/2025" "30" (3/5) (daysFromCivil 2025 10 12) =
      .ok ⟨true, 1, ["Groceries"],
        [⟨"Groceries", 50000, "Food", "", "10/10/2025", ""⟩], none⟩ ∧
    analyze_expenses_tool ⟨.ok [⟨"Groceries", 50000, "Food", "", .str "10/10/2025", ""⟩], true⟩
        "count" "" "" "09/30/2025" "10/05/2025" "30" (daysFromCivil 2025 10 12) =
      .ok .noData ∧
    analyze_expenses_tool ⟨.ok [⟨"Groceries", 50000, "Food", "", .str "10/10/2025", ""⟩], true⟩
        "count" "" "" "" "" "30" (daysFromCivil 2025 10 12) =
      .ok (.found "count" 1 1 [⟨"Groceries", 50000, "Food", "", "10/10/2025", ""⟩]) :=
  ⟨rfl, rfl, rfl⟩

/-! ### C9 -/

/-- C9 (amended): delete, add_one and add_many catch a remote-store
failure inside the operation and convert it to a structured error result;
but update_field, find and analyze do not guard their remote read, so a
store failure escapes the operation as an exception rather than a
structured result. -/
theorem c9_store_failure_propagation :
    (∀ (w : Bool) (name : String) (ds cat : Option String) (thr : ℚ) (bulk : Bool),
      delete_transaction_tool ⟨.error (), w⟩ name ds cat thr bulk =
        (⟨.error, "Error deleting transaction", 0, [], none⟩, [])) ∧
    (∀ (recsE : Except Unit (List SRecord)) (name : String) (amount : ℚ)
        (category notes c t : String),
      name ≠ "" → ¬(100 < name.length) → pySanitize name ≠ "" →
      ¬(amount ≤ 0) → ¬(100000000 < amount) →
      pyStrip category ∈ VALID_CATEGORIES →
      ¬(500 < notes.length) →
      add_transaction_tool ⟨recsE, false⟩ name amount category none notes c t =
        (⟨.error, "Failed to add transaction. Please try again."⟩, [])) ∧
    (∀ (recsE : Except Unit (List SRecord)) (l : List TxnItem) (c t : String),
      l ≠ [] → ¬(50 < l.length) → (add_many_loop c t 0 l).2 ≠ [] →
      add_transactions_tool ⟨recsE, false⟩ (some l) c t =
        (⟨.error, "Failed to add transactions. Please try again.", none, none, none⟩, [])) ∧
    (∀ (w : Bool) (name field nv : String) (ds : Option String) (thr : ℚ) (v : String),
      update_valid_fields.contains (pyCapitalize field) = true →
      updateValidateValue (pyCapitalize field) nv = .ok v →
      ¬(name = "" ∨ 100 < name.data.length) →
      update_transaction_tool ⟨.error (), w⟩ name field nv ds thr = .error ()) ∧
    (∀ (w : Bool) (name cat date sd ed da : String) (thr : ℚ) (today : Int),
      check_data_exists_tool ⟨.error (), w⟩ name cat date sd ed da thr today = .error ()) ∧
    (∀ (w : Bool) (metric cat name sd ed days : String) (today : Int),
      ["sum", "count", "average"].contains (pyStrip (pyLower metric)) = true →
      analyze_expenses_tool ⟨.error (), w⟩ metric cat name sd ed days today = .error ()) := by
  refine ⟨fun w name ds cat thr bulk => rfl, ?_, ?_, ?_, fun w name cat date sd ed da thr today => rfl, ?_⟩
  · intro recsE name amount category notes c t h1 h2 h3 h4 h5 h6 h7
    simp [add_transaction_tool, h1, h2, h3, h4, h5, h6, h7]
  · intro recsE l c t h1 h2 h3
    rcases hp : add_many_loop c t 0 l with ⟨errs, rows⟩
    rw [hp] at h3
    simp only at h3
    simp [add_transactions_tool, hp, h1, h2, h3, List.isEmpty_iff]
  · intro w name field nv ds thr v hf hv hn
    rw [update_transaction_tool]
    rw [hf]
    simp only [Bool.not_true, Bool.false_eq_true, if_false, hv]
    rw [if_neg hn]
  · intro w metric cat name sd ed days today h
    rw [analyze_expenses_tool]
    rw [h]
    simp

/-- C9 witness: concrete instances of each conjunct of the amended
statement — delete and the adds convert the store failure, while update,
find and analyze let it escape. -/
theorem c9_witness :
    delete_transaction_tool ⟨.error (), true⟩ "coffee" none none (3/5) false =
      (⟨.error, "Error deleting transaction", 0, [], none⟩, []) ∧
    add_transaction_tool ⟨.ok [], false⟩ "Latte" 100 "Food" none "" "c" "t" =
      (⟨.error, "Failed to add transaction. Please try again."⟩, []) ∧
    add_transactions_tool ⟨.ok [], false⟩
        (some [.item (.jstr "A") (.jint 5) (.jstr "Food") "" ""]) "c" "t" =
      (⟨.error, "Failed to add transactions. Please try again.", none, none, none⟩, []) ∧
    update_transaction_tool ⟨.error (), true⟩ "coffee" "Amount" "5" none (3/5) = .error () ∧
    check_data_exists_tool ⟨.error (), true⟩ "" "" "" "" "" "" (3/5) 0 = .error () ∧
    analyze_expenses_tool ⟨.error (), true⟩ "sum" "" "" "" "" "" 0 = .error () := by
  obtain ⟨h1, h2, h3, h4, h5, h6⟩ := c9_store_failure_propagation
  exact ⟨h1 true "coffee" none none (3/5) false,
         h2 (.ok []) "Latte" 100 "Food" "" "c" "t" (by decide) (by decide) (by decide)
           (by norm_num) (by norm_num) (by decide) (by decide),
         h3 (.ok []) [.item (.jstr "A") (.jint 5) (.jstr "Food") "" ""] "c" "t"
           (by decide) (by decide) (by decide),
         h4 true "coffee" "Amount" "5" none (3/5) "5" (by decide) rfl (by decide),
         h5 true "" "" "" "" "" "" (3/5) 0,
         h6 true "sum" "" "" "" "" "" 0 (by decide)⟩

/-- C9 counterexample: the claim as stated is false — the find operation
on a failing store returns the escaped exception, not a structured
`status: error` result. -/
theorem c9_counterexample :
    check_data_exists_tool ⟨.error (), true⟩ "groceries" "Food" "" "" "" "" (3/5) 0 =
      .error () := rfl

/-! ### C1 -/

theorem delete_tool_gate_unfold (env : SheetEnv) (recs : List SRecord) (name : String)
    (ds cat : Option String) (thr : ℚ) (bulk : Bool)
    (hrec : env.records = .ok recs) (hne : recs ≠ [])
    (hmm : (delete_matched_names name (recs.map fun r => pyStrip r.name) thr).isEmpty = false)
    (hrne : delete_candidates recs name ds cat thr ≠ []) :
    delete_transaction_tool env name ds cat thr bulk =
      if 1 < (delete_candidates recs name ds cat thr).length ∧ bulk = false then
        (⟨.multipleMatches,
          "Found " ++ toString (delete_candidates recs name ds cat thr).length
            ++ " matches. Set delete_all_matches=True to delete all, or add date/category filters to narrow down.",
          0, (delete_candidates recs name ds cat thr).map Prod.snd,
          some (delete_candidates recs name ds cat thr).length⟩, [])
      else if env.writeOk = true then
        (⟨.success,
          "Successfully deleted " ++ toString (delete_candidates recs name ds cat thr).length
            ++ " transaction(s)",
          (delete_candidates recs name ds cat thr).length,
          (delete_candidates recs name ds cat thr).map Prod.snd, none⟩,
         (groupRangesTop (pySortedNat
            ((delete_candidates recs name ds cat thr).map Prod.fst))).reverse.map
           fun p => SheetOp.deleteRows p.1 p.2)
      else (⟨.error, "Error deleting transaction", 0, [], none⟩, []) := by
  have h1 : ¬(recs.isEmpty = true) := by simpa [List.isEmpty_iff] using hne
  have h2 : ¬((delete_matched_names name (recs.map fun r => pyStrip r.name) thr).isEmpty
      = true) := by simp [hmm]
  have h3 : ¬(((delete_candidates recs name ds cat thr).map Prod.fst).isEmpty = true) := by
    simp [List.isEmpty_iff, hrne]
  obtain ⟨renv, w⟩ := env
  obtain rfl : renv = .ok recs := hrec
  simp only [delete_transaction_tool]
  rw [if_neg h1, if_neg h2, if_neg h3]
  simp only [List.length_map]
  have hiff : ((decide (1 < (delete_candidates recs name ds cat thr).length) && !bulk) = true)
      ↔ (1 < (delete_candidates recs name ds cat thr).length ∧ bulk = false) := by
    simp [Bool.not_eq_true']
  by_cases hb : 1 < (delete_candidates recs name ds cat thr).length ∧ bulk = false
  · rw [if_pos (hiff.mpr hb), if_pos hb]
  · rw [if_neg (fun hcon => hb (hiff.mp hcon)), if_neg hb]

/-- C1: when more than one row qualifies after name matching and the
optional date/category narrowing and the bulk flag is not set, delete
returns the `multiple_matches` status carrying the candidate count and
details and issues no write; when exactly one row qualifies, deletion
proceeds to success without requiring the bulk flag. -/
theorem c1_delete_multiple_match_gate (env : SheetEnv) (recs : List SRecord) (name : String)
    (ds cat : Option String) (thr : ℚ) (bulk : Bool)
    (hrec : env.records = .ok recs) (hw : env.writeOk = true) :
    (1 < (delete_candidates recs name ds cat thr).length → bulk = false →
      (delete_transaction_tool env name ds cat thr bulk).1 =
        ⟨.multipleMatches,
         "Found " ++ toString (delete_candidates recs name ds cat thr).length
           ++ " matches. Set delete_all_matches=True to delete all, or add date/category filters to narrow down.",
         0, (delete_candidates recs name ds cat thr).map Prod.snd,
         some (delete_candidates recs name ds cat thr).length⟩ ∧
      (delete_transaction_tool env name ds cat thr bulk).2 = []) ∧
    ((delete_candidates recs name ds cat thr).length = 1 →
      (delete_transaction_tool env name ds cat thr bulk).1.status = .success ∧
      (delete_transaction_tool env name ds cat thr bulk).1.deleted_count = 1 ∧
      (delete_transaction_tool env name ds cat thr bulk).2 =
        ((delete_candidates recs name ds cat thr).map Prod.fst).map
          fun i => SheetOp.deleteRows i i) := by
  have hne : ∀ (hx : 0 < (delete_candidates recs name ds cat thr).length), recs ≠ [] := by
    intro hx hcon
    rw [hcon, delete_candidates_nil] at hx
    simp at hx
  have hmm : ∀ (hx : 0 < (delete_candidates recs name ds cat thr).length),
      (delete_matched_names name (recs.map fun r => pyStrip r.name) thr).isEmpty = false := by
    intro hx
    by_cases hm : (delete_matched_names name (recs.map fun r => pyStrip r.name) thr).isEmpty = true
    · rw [delete_candidates_empty_of_no_match recs name ds cat thr hm] at hx
      simp at hx
    · simpa using hm
  have hrne : ∀ (hx : 0 < (delete_candidates recs name ds cat thr).length),
      delete_candidates recs name ds cat thr ≠ [] := by
    intro hx hcon
    rw [hcon] at hx
    simp at hx
  constructor
  · intro hlen hbulk
    rw [delete_tool_gate_unfold env recs name ds cat thr bulk hrec (hne (by omega))
      (hmm (by omega)) (hrne (by omega))]
    rw [if_pos ⟨hlen, hbulk⟩]
    exact ⟨rfl, rfl⟩
  · intro hlen1
    rw [delete_tool_gate_unfold env recs name ds cat thr bulk hrec (hne (by omega))
      (hmm (by omega)) (hrne (by omega))]
    rw [if_neg (fun hcon => by omega : ¬(1 < (delete_candidates recs name ds cat thr).length
      ∧ bulk = false))]
    rw [if_pos hw]
    refine ⟨rfl, hlen1, ?_⟩
    obtain ⟨p, hp⟩ := List.length_eq_one.mp hlen1
    rw [hp]
    rfl

/-- C1 witness: three stored rows match "coffee"; with `bulk = false` the
call refuses with `multiple_matches`, count 3, full details and no write;
adding an exact date filter narrows to one row and deletion then proceeds
(without the bulk flag), issuing the single range delete. -/
theorem c1_witness :
    ((delete_transaction_tool
        ⟨.ok [⟨"Coffee", 25000, "Food", "", .str "11/14/2025", ""⟩,
              ⟨"Coffee", 30000, "Food", "", .str "11/15/2025", ""⟩,
              ⟨"Coffee Shop", 50000, "Food", "", .str "11/16/2025", ""⟩], true⟩
        "coffee" none none (3/5) false).1.status = .multipleMatches ∧
      (delete_transaction_tool
        ⟨.ok [⟨"Coffee", 25000, "Food", "", .str "11/14/2025", ""⟩,
              ⟨"Coffee", 30000, "Food", "", .str "11/15/2025", ""⟩,
              ⟨"Coffee Shop", 50000, "Food", "", .str "11/16/2025", ""⟩], true⟩
        "coffee" none none (3/5) false).1.matches_found = some 3 ∧
      (delete_transaction_tool
        ⟨.ok [⟨"Coffee", 25000, "Food", "", .str "11/14/2025", ""⟩,
              ⟨"Coffee", 30000, "Food", "", .str "11/15/2025", ""⟩,
              ⟨"Coffee Shop", 50000, "Food", "", .str "11/16/2025", ""⟩], true⟩
        "coffee" none none (3/5) false).2 = []) ∧
    ((delete_transaction_tool
        ⟨.ok [⟨"Coffee", 25000, "Food", "", .str "11/14/2025", ""⟩,
              ⟨"Coffee", 30000, "Food", "", .str "11/15/2025", ""⟩,
              ⟨"Coffee Shop", 50000, "Food", "", .str "11/16/2025", ""⟩], true⟩
        "coffee" (some "11/15/2025") none (3/5) false).1.status = .success ∧
      (delete_transaction_tool
        ⟨.ok [⟨"Coffee", 25000, "Food", "", .str "11/14/2025", ""⟩,
              ⟨"Coffee", 30000, "Food", "", .str "11/15/2025", ""⟩,
              ⟨"Coffee Shop", 50000, "Food", "", .str "11/16/2025", ""⟩], true⟩
        "coffee" (some "11/15/2025") none (3/5) false).2 = [SheetOp.deleteRows 3 3]) := by
  constructor
  · obtain ⟨hmul, _⟩ := c1_delete_multiple_match_gate
      ⟨.ok [⟨"Coffee", 25000, "Food", "", .str "11/14/2025", ""⟩,
            ⟨"Coffee", 30000, "Food", "", .str "11/15/2025", ""⟩,
            ⟨"Coffee Shop", 50000, "Food", "", .str "11/16/2025", ""⟩], true⟩
      [⟨"Coffee", 25000, "Food", "", .str "11/14/2025", ""⟩,
       ⟨"Coffee", 30000, "Food", "", .str "11/15/2025", ""⟩,
       ⟨"Coffee Shop", 50000, "Food", "", .str "11/16/2025", ""⟩]
      "coffee" none none (3/5) false rfl rfl
    obtain ⟨h1, h2⟩ := hmul (by decide) rfl
    exact ⟨by rw [h1], by rw [h1]; rfl, h2⟩
  · obtain ⟨_, hone⟩ := c1_delete_multiple_match_gate
      ⟨.ok [⟨"Coffee", 25000, "Food", "", .str "11/14/2025", ""⟩,
            ⟨"Coffee", 30000, "Food", "", .str "11/15/2025", ""⟩,
            ⟨"Coffee Shop", 50000, "Food", "", .str "11/16/2025", ""⟩], true⟩
      [⟨"Coffee", 25000, "Food", "", .str "11/14/2025", ""⟩,
       ⟨"Coffee", 30000, "Food", "", .str "11/15/2025", ""⟩,
       ⟨"Coffee Shop", 50000, "Food", "", .str "11/16/2025", ""⟩]
      "coffee" (some "11/15/2025") none (3/5) false rfl rfl
    obtain ⟨h1, _, h3⟩ := hone (by decide)
    exact ⟨h1, by rw [h3]; rfl⟩

/-! ### C4 -/

theorem groupRanges_head_fst (s e : Nat) (l : List Nat) :
    ∃ e' t, groupRanges s e l = (s, e') :: t := by
  induction l generalizing e with
  | nil => exact ⟨e, [], rfl⟩
  | cons r rest ih =>
    by_cases h : r = e + 1
    · simpa [groupRanges, h] using ih r
    · exact ⟨e, groupRanges r r rest, by simp [groupRanges, h]⟩

theorem groupRanges_join (s e : Nat) (l : List Nat) (hse : s ≤ e)
    (hch : List.Chain' (· < ·) (e :: l)) :
    ((groupRanges s e l).flatMap fun p => List.range' p.1 (p.2 + 1 - p.1))
      = List.range' s (e + 1 - s) ++ l := by
  induction l generalizing s e with
  | nil => simp [groupRanges]
  | cons r rest ih =>
    have her : e < r := (List.chain'_cons.mp hch).1
    have hch' : List.Chain' (· < ·) (r :: rest) := (List.chain'_cons.mp hch).2
    by_cases h : r = e + 1
    · subst h
      rw [groupRanges, if_pos rfl]
      rw [ih s (e + 1) (by omega) hch']
      have hr1 : List.range' s (e + 1 + 1 - s) = List.range' s (e + 1 - s) ++ [e + 1] := by
        rw [show e + 1 + 1 - s = (e + 1 - s) + 1 from by omega, List.range'_concat]
        congr 1
        simp only [Nat.one_mul, List.cons.injEq, and_true]
        omega
      rw [hr1]
      simp
    · have hgap : e + 1 < r := by omega
      rw [groupRanges, if_neg h]
      rw [List.flatMap_cons]
      rw [ih r r (le_refl r) hch']
      simp

theorem groupRanges_gaps (s e : Nat) (l : List Nat)
    (hch : List.Chain' (· < ·) (e :: l)) :
    List.Chain' (fun p q => p.2 + 1 < q.1) (groupRanges s e l) := by
  induction l generalizing s e with
  | nil => simp [groupRanges]
  | cons r rest ih =>
    have her : e < r := (List.chain'_cons.mp hch).1
    have hch' : List.Chain' (· < ·) (r :: rest) := (List.chain'_cons.mp hch).2
    by_cases h : r = e + 1
    · subst h
      simpa [groupRanges] using ih s (e + 1) hch'
    · rw [groupRanges, if_neg h]
      obtain ⟨e', t, hgt⟩ := groupRanges_head_fst r r rest
      rw [hgt]
      refine List.chain'_cons.mpr ⟨by simp; omega, ?_⟩
      rw [← hgt]
      exact ih r r hch'

theorem groupRanges_starts (s e : Nat) (l : List Nat) (hse : s ≤ e)
    (hch : List.Chain' (· < ·) (e :: l)) :
    List.Chain' (fun p q : Nat × Nat => p.1 < q.1) (groupRanges s e l) := by
  induction l generalizing s e with
  | nil => simp [groupRanges]
  | cons r rest ih =>
    have her : e < r := (List.chain'_cons.mp hch).1
    have hch' : List.Chain' (· < ·) (r :: rest) := (List.chain'_cons.mp hch).2
    by_cases h : r = e + 1
    · subst h
      simpa [groupRanges] using ih s (e + 1) (by omega) hch'
    · rw [groupRanges, if_neg h]
      obtain ⟨e', t, hgt⟩ := groupRanges_head_fst r r rest
      rw [hgt]
      refine List.chain'_cons.mpr ⟨by simp; omega, ?_⟩
      rw [← hgt]
      exact ih r r (le_refl r) hch'

theorem delete_scan_fst_ge (m : List String) (ds c : Option String) (i : Nat)
    (l : List SRecord) :
    ∀ x ∈ (delete_scan m ds c i l).map Prod.fst, i ≤ x := by
  induction l generalizing i with
  | nil => simp [delete_scan]
  | cons r rest ih =>
    intro x hx
    simp only [delete_scan, List.map_append, List.mem_append] at hx
    rcases hx with hx | hx
    · split at hx
      · simp at hx
        omega
      · simp at hx
    · have := ih (i + 1) x hx
      omega

theorem delete_scan_fst_chain (m : List String) (ds c : Option String) (i : Nat)
    (l : List SRecord) :
    List.Chain' (· < ·) ((delete_scan m ds c i l).map Prod.fst) := by
  induction l generalizing i with
  | nil => simp [delete_scan]
  | cons r rest ih =>
    simp only [delete_scan, List.map_append]
    split
    · simp only [List.map_cons, List.map_nil, List.singleton_append]
      refine List.chain'_cons'.mpr ⟨?_, ih (i + 1)⟩
      intro y hy
      have hmem : y ∈ (delete_scan m ds c (i + 1) rest).map Prod.fst :=
        List.mem_of_mem_head? hy
      have := delete_scan_fst_ge m ds c (i + 1) rest y hmem
      omega
    · simpa using ih (i + 1)

theorem delete_candidates_eq (recs : List SRecord) (name : String) (ds cat : Option String)
    (thr : ℚ) :
    delete_candidates recs name ds cat thr =
      delete_scan (delete_matched_names name (recs.map fun r => pyStrip r.name) thr)
        ds cat 2 recs := rfl

theorem delete_candidates_fst_chain (recs : List SRecord) (name : String)
    (ds cat : Option String) (thr : ℚ) :
    List.Chain' (· < ·) ((delete_candidates recs name ds cat thr).map Prod.fst) := by
  rw [delete_candidates_eq]
  exact delete_scan_fst_chain _ ds cat 2 recs

theorem pySortedNat_eq_self (l : List Nat) (h : List.Chain' (· < ·) l) :
    pySortedNat l = l := by
  induction l with
  | nil => rfl
  | cons x xs ih =>
    rw [pySortedNat, ih h.tail]
    cases xs with
    | nil => rfl
    | cons y ys =>
      have hxy : x < y := (List.chain'_cons.mp h).1
      simp [insertAsc, Nat.le_of_lt hxy]

/-- C4: in a proceeding delete, the qualifying row indices are grouped
into maximal contiguous runs — the runs flatten back to exactly the
qualifying indices, consecutive runs are separated by a gap — each run is
deleted by exactly one range-delete call, and the calls are issued in
descending order of row number. -/
theorem c4_delete_contiguous_ranges (env : SheetEnv) (recs : List SRecord) (name : String)
    (ds cat : Option String) (thr : ℚ) (bulk : Bool)
    (hrec : env.records = .ok recs) (hw : env.writeOk = true)
    (hne : delete_candidates recs name ds cat thr ≠ [])
    (hgate : (delete_candidates recs name ds cat thr).length = 1 ∨ bulk = true) :
    (delete_transaction_tool env name ds cat thr bulk).2 =
      (groupRangesTop ((delete_candidates recs name ds cat thr).map Prod.fst)).reverse.map
        (fun p => SheetOp.deleteRows p.1 p.2) ∧
    ((groupRangesTop ((delete_candidates recs name ds cat thr).map Prod.fst)).flatMap
        fun p => List.range' p.1 (p.2 + 1 - p.1))
      = (delete_candidates recs name ds cat thr).map Prod.fst ∧
    List.Chain' (fun p q => p.2 + 1 < q.1)
      (groupRangesTop ((delete_candidates recs name ds cat thr).map Prod.fst)) ∧
    List.Chain' (fun p q : Nat × Nat => q.1 < p.1)
      ((groupRangesTop ((delete_candidates recs name ds cat thr).map Prod.fst)).reverse) := by
  have hlen : 0 < (delete_candidates recs name ds cat thr).length :=
    List.length_pos.mpr hne
  have hnerecs : recs ≠ [] := by
    intro hcon
    rw [hcon, delete_candidates_nil] at hlen
    simp at hlen
  have hmm : (delete_matched_names name (recs.map fun r => pyStrip r.name) thr).isEmpty
      = false := by
    by_cases hm : (delete_matched_names name (recs.map fun r => pyStrip r.name) thr).isEmpty = true
    · rw [delete_candidates_empty_of_no_match recs name ds cat thr hm] at hlen
      simp at hlen
    · simpa using hm
  have hchain := delete_candidates_fst_chain recs name ds cat thr
  have hsorted : pySortedNat ((delete_candidates recs name ds cat thr).map Prod.fst)
      = (delete_candidates recs name ds cat thr).map Prod.fst :=
    pySortedNat_eq_self _ hchain
  obtain ⟨h0, rows, hrows⟩ : ∃ h0 rows,
      (delete_candidates recs name ds cat thr).map Prod.fst = h0 :: rows := by
    rcases hc : (delete_candidates recs name ds cat thr).map Prod.fst with _ | ⟨h0, rows⟩
    · rw [List.map_eq_nil_iff] at hc
      exact absurd hc hne
    · exact ⟨h0, rows, rfl⟩
  refine ⟨?_, ?_, ?_, ?_⟩
  · rw [delete_tool_gate_unfold env recs name ds cat thr bulk hrec hnerecs hmm hne]
    have hng : ¬(1 < (delete_candidates recs name ds cat thr).length ∧ bulk = false) := by
      rcases hgate with h | h
      · intro hcon; omega
      · intro hcon; rw [h] at hcon; exact absurd hcon.2 (by simp)
    rw [if_neg hng]
    rw [if_pos hw]
    rw [hsorted]
  · rw [hrows, groupRangesTop]
    rw [hrows] at hchain
    rw [groupRanges_join h0 h0 rows (le_refl h0) hchain]
    simp
  · rw [hrows, groupRangesTop]
    rw [hrows] at hchain
    exact groupRanges_gaps h0 h0 rows hchain
  · rw [List.chain'_reverse]
    rw [hrows, groupRangesTop]
    rw [hrows] at hchain
    exact groupRanges_starts h0 h0 rows (le_refl h0) hchain

/-- C4 witness: deleting rows {5, 6, 7, 10} (four "Coffee" rows at those
sheet positions, bulk deletion) issues exactly two range-delete calls,
(10, 10) first and then (5, 7). -/
theorem c4_witness :
    ((delete_candidates
        [⟨"Tea", 1, "Food", "", .str "01/01/2025", ""⟩,
         ⟨"Tea", 1, "Food", "", .str "01/01/2025", ""⟩,
         ⟨"Tea", 1, "Food", "", .str "01/01/2025", ""⟩,
         ⟨"Coffee", 1, "Food", "", .str "01/01/2025", ""⟩,
         ⟨"Coffee", 1, "Food", "", .str "01/01/2025", ""⟩,
         ⟨"Coffee", 1, "Food", "", .str "01/01/2025", ""⟩,
         ⟨"Tea", 1, "Food", "", .str "01/01/2025", ""⟩,
         ⟨"Tea", 1, "Food", "", .str "01/01/2025", ""⟩,
         ⟨"Coffee", 1, "Food", "", .str "01/01/2025", ""⟩]
        "coffee" none none (3/5)).map Prod.fst = [5, 6, 7, 10]) ∧
    (delete_transaction_tool
        ⟨.ok [⟨"Tea", 1, "Food", "", .str "01/01/2025", ""⟩,
              ⟨"Tea", 1, "Food", "", .str "01/01/2025", ""⟩,
              ⟨"Tea", 1, "Food", "", .str "01/01/2025", ""⟩,
              ⟨"Coffee", 1, "Food", "", .str "01/01/2025", ""⟩,
              ⟨"Coffee", 1, "Food", "", .str "01/01/2025", ""⟩,
              ⟨"Coffee", 1, "Food", "", .str "01/01/2025", ""⟩,
              ⟨"Tea", 1, "Food", "", .str "01/01/2025", ""⟩,
              ⟨"Tea", 1, "Food", "", .str "01/01/2025", ""⟩,
              ⟨"Coffee", 1, "Food", "", .str "01/01/2025", ""⟩], true⟩
        "coffee" none none (3/5) true).2 =
      [SheetOp.deleteRows 10 10, SheetOp.deleteRows 5 7] := by
  refine ⟨by decide, ?_⟩
  obtain ⟨hops, _, _, _⟩ := c4_delete_contiguous_ranges
    ⟨.ok [⟨"Tea", 1, "Food", "", .str "01/01/2025", ""⟩,
          ⟨"Tea", 1, "Food", "", .str "01/01/2025", ""⟩,
          ⟨"Tea", 1, "Food", "", .str "01/01/2025", ""⟩,
          ⟨"Coffee", 1, "Food", "", .str "01/01/2025", ""⟩,
          ⟨"Coffee", 1, "Food", "", .str "01/01/2025", ""⟩,
          ⟨"Coffee", 1, "Food", "", .str "01/01/2025", ""⟩,
          ⟨"Tea", 1, "Food", "", .str "01/01/2025", ""⟩,
          ⟨"Tea", 1, "Food", "", .str "01/01/2025", ""⟩,
          ⟨"Coffee", 1, "Food", "", .str "01/01/2025", ""⟩], true⟩
    [⟨"Tea", 1, "Food", "", .str "01/01/2025", ""⟩,
     ⟨"Tea", 1, "Food", "", .str "01/01/2025", ""⟩,
     ⟨"Tea", 1, "Food", "", .str "01/01/2025", ""⟩,
     ⟨"Coffee", 1, "Food", "", .str "01/01/2025", ""⟩,
     ⟨"Coffee", 1, "Food", "", .str "01/01/2025", ""⟩,
     ⟨"Coffee", 1, "Food", "", .str "01/01/2025", ""⟩,
     ⟨"Tea", 1, "Food", "", .str "01/01/2025", ""⟩,
     ⟨"Tea", 1, "Food", "", .str "01/01/2025", ""⟩,
     ⟨"Coffee", 1, "Food", "", .str "01/01/2025", ""⟩]
    "coffee" none none (3/5) true rfl rfl (by decide) (Or.inr rfl)
  rw [hops]
  rfl

/-! ### C7 -/

theorem add_many_loop_spec (c t : String) (idx : Nat) (items : List TxnItem) :
    add_many_loop c t idx items =
      ((items.enumFrom idx).filterMap fun p =>
         match validateTxn c t p.2 with
         | .error m => some (p.1, m)
         | .ok _ => none,
       items.filterMap fun tx => (validateTxn c t tx).toOption) := by
  induction items generalizing idx with
  | nil => rfl
  | cons a rest ih =>
    simp only [add_many_loop, ih idx.succ, List.enumFrom, List.filterMap]
    cases h : validateTxn c t a <;> simp [h, Except.toOption]

/-- C7: a batch insertion of at most 50 items validates each item
independently — the error list is exactly the per-index errors of the
individually invalid items, the appended rows are exactly the
individually valid items (one combined `append_rows` call), and the
result reports `added_count` = number of valid items and `error_count` =
number of invalid ones; a batch with no valid item yields a status-error
result carrying the error list and zero successes. -/
theorem c7_add_many_per_item (env : SheetEnv) (txns : List TxnItem) (c t : String)
    (hne : txns ≠ []) (hlen : txns.length ≤ 50) (hw : env.writeOk = true) :
    (add_many_loop c t 0 txns).1 =
      ((txns.enumFrom 0).filterMap fun p =>
        match validateTxn c t p.2 with
        | .error m => some (p.1, m)
        | .ok _ => none) ∧
    (add_many_loop c t 0 txns).2 =
      (txns.filterMap fun tx => (validateTxn c t tx).toOption) ∧
    (add_transactions_tool env (some txns) c t).1.error_count =
      some (add_many_loop c t 0 txns).1.length ∧
    (add_transactions_tool env (some txns) c t).1.errors =
      some (add_many_loop c t 0 txns).1 ∧
    ((add_many_loop c t 0 txns).2 ≠ [] →
      (add_transactions_tool env (some txns) c t).1.status = .success ∧
      (add_transactions_tool env (some txns) c t).1.added_count =
        some (add_many_loop c t 0 txns).2.length ∧
      (add_transactions_tool env (some txns) c t).2 =
        [SheetOp.appendRows (add_many_loop c t 0 txns).2]) ∧
    ((add_many_loop c t 0 txns).2 = [] →
      (add_transactions_tool env (some txns) c t).1.status = .error ∧
      (add_transactions_tool env (some txns) c t).1.added_count = some 0 ∧
      (add_transactions_tool env (some txns) c t).2 = []) := by
  obtain ⟨re, w⟩ := env
  obtain rfl : w = true := hw
  have hspec := add_many_loop_spec c t 0 txns
  rcases hp : add_many_loop c t 0 txns with ⟨errsL, rowsL⟩
  have hpair := hp.symm.trans hspec
  have he : errsL = (txns.enumFrom 0).filterMap fun p =>
      match validateTxn c t p.2 with
      | .error m => some (p.1, m)
      | .ok _ => none := congrArg Prod.fst hpair
  have hv : rowsL = txns.filterMap fun tx => (validateTxn c t tx).toOption :=
    congrArg Prod.snd hpair
  by_cases hrow : rowsL = []
  · have hred : add_transactions_tool ⟨re, true⟩ (some txns) c t =
        (⟨.error, "No valid transactions to add", some 0, some errsL.length, some errsL⟩,
         []) := by
      simp only [add_transactions_tool]
      rw [if_neg (by simpa [List.isEmpty_iff] using hne)]
      rw [if_neg (by omega)]
      rw [hp]
      simp [hrow]
    rw [hred]
    refine ⟨he, hv, rfl, rfl, fun hcon => absurd hrow hcon, fun _ => ⟨rfl, rfl, rfl⟩⟩
  · have hred : add_transactions_tool ⟨re, true⟩ (some txns) c t =
        (⟨.success, "Added " ++ toString rowsL.length ++ " transaction(s)",
          some rowsL.length, some errsL.length, some errsL⟩,
         [SheetOp.appendRows rowsL]) := by
      simp only [add_transactions_tool]
      rw [if_neg (by simpa [List.isEmpty_iff] using hne)]
      rw [if_neg (by omega)]
      rw [hp]
      simp [hrow]
    rw [hred]
    exact ⟨he, hv, rfl, rfl, fun _ => ⟨rfl, rfl, rfl⟩, fun hcon => absurd hcon hrow⟩

/-- C7 witness: 3 valid items + 1 invalid (bad category) at index 2 —
`added_count = 3`, `error_count = 1`, the single error entry references
index 2, and one combined append of the three valid rows is issued. -/
theorem c7_witness :
    (add_transactions_tool ⟨.ok [], true⟩
        (some [.item (.jstr "Coffee") (.jint 25000) (.jstr "Food") "" "",
               .item (.jstr "Bus") (.jint 5000) (.jstr "Transport") "" "",
               .item (.jstr "Pills") (.jint 7000) (.jstr "Nope") "" "",
               .item (.jstr "Book") (.jint 90000) (.jstr "Education") "01/15/2025" ""])
        "ct" "10/12/2025").1.status = .success ∧
    (add_transactions_tool ⟨.ok [], true⟩
        (some [.item (.jstr "Coffee") (.jint 25000) (.jstr "Food") "" "",
               .item (.jstr "Bus") (.jint 5000) (.jstr "Transport") "" "",
               .item (.jstr "Pills") (.jint 7000) (.jstr "Nope") "" "",
               .item (.jstr "Book") (.jint 90000) (.jstr "Education") "01/15/2025" ""])
        "ct" "10/12/2025").1.added_count = some 3 ∧
    (add_transactions_tool ⟨.ok [], true⟩
        (some [.item (.jstr "Coffee") (.jint 25000) (.jstr "Food") "" "",
               .item (.jstr "Bus") (.jint 5000) (.jstr "Transport") "" "",
               .item (.jstr "Pills") (.jint 7000) (.jstr "Nope") "" "",
               .item (.jstr "Book") (.jint 90000) (.jstr "Education") "01/15/2025" ""])
        "ct" "10/12/2025").1.error_count = some 1 ∧
    (add_transactions_tool ⟨.ok [], true⟩
        (some [.item (.jstr "Coffee") (.jint 25000) (.jstr "Food") "" "",
               .item (.jstr "Bus") (.jint 5000) (.jstr "Transport") "" "",
               .item (.jstr "Pills") (.jint 7000) (.jstr "Nope") "" "",
               .item (.jstr "Book") (.jint 90000) (.jstr "Education") "01/15/2025" ""])
        "ct" "10/12/2025").1.errors = some [(2, "Invalid category Nope")] ∧
    ((add_transactions_tool ⟨.ok [], true⟩
        (some [.item (.jstr "Coffee") (.jint 25000) (.jstr "Food") "" "",
               .item (.jstr "Bus") (.jint 5000) (.jstr "Transport") "" "",
               .item (.jstr "Pills") (.jint 7000) (.jstr "Nope") "" "",
               .item (.jstr "Book") (.jint 90000) (.jstr "Education") "01/15/2025" ""])
        "ct" "10/12/2025").2.length = 1) := by
  obtain ⟨he, hv, hec, herr, hsucc, _⟩ := c7_add_many_per_item ⟨.ok [], true⟩
    [.item (.jstr "Coffee") (.jint 25000) (.jstr "Food") "" "",
     .item (.jstr "Bus") (.jint 5000) (.jstr "Transport") "" "",
     .item (.jstr "Pills") (.jint 7000) (.jstr "Nope") "" "",
     .item (.jstr "Book") (.jint 90000) (.jstr "Education") "01/15/2025" ""]
    "ct" "10/12/2025" (by decide) (by decide) rfl
  obtain ⟨hst, hadd, hops⟩ := hsucc (by decide)
  refine ⟨hst, ?_, ?_, ?_, ?_⟩
  · rw [hadd]; rfl
  · rw [hec]; rfl
  · rw [herr]; rfl
  · rw [hops]; rfl

/-! ### C2 -/

theorem process_msgs_sublist (label : Option String) (msgs : List (String × List String))
    (processed : List String) :
    (process_msgs label msgs processed).2.Sublist (msgs.map Prod.fst) := by
  induction msgs generalizing processed with
  | nil => simp [process_msgs]
  | cons m rest ih =>
    obtain ⟨mid, mlab⟩ := m
    simp only [process_msgs, List.map_cons]
    split
    · exact (ih processed).cons _
    · split
      · exact (ih processed).cons _
      · exact (ih (seenAdd processed mid)).cons₂ _

theorem process_notification_stale (label : Option String) (env : GmailEnv) (c : Nat)
    (st : GmailState) (l : Nat) (hl : st.last_history_id = some l) (hc : c ≤ l) :
    process_notification label env c st = (st, []) := by
  obtain ⟨lastO, proc⟩ := st
  obtain rfl : lastO = some l := hl
  simp [process_notification, hc]

theorem process_notification_advances (label : Option String) (env : GmailEnv) (c : Nat)
    (st : GmailState) :
    ∃ l', ((process_notification label env c st).1).last_history_id = some l' ∧ c ≤ l' := by
  obtain ⟨lat, hist⟩ := env
  obtain ⟨lastO, proc⟩ := st
  cases lastO with
  | none =>
    cases lat with
    | error e => exact ⟨c, rfl, le_refl c⟩
    | ok o =>
      cases o with
      | none => exact ⟨c, rfl, le_refl c⟩
      | some msgId =>
        refine ⟨c, ?_, le_refl c⟩
        simp only [process_notification]
        split <;> rfl
  | some l =>
    by_cases hc : c ≤ l
    · rw [process_notification_stale label ⟨lat, hist⟩ c ⟨some l, proc⟩ l rfl hc]
      exact ⟨l, rfl, hc⟩
    · cases hist with
      | error e => exact ⟨c, by simp [process_notification, hc], le_refl c⟩
      | ok recs => exact ⟨c, by simp [process_notification, hc], le_refl c⟩

/-- C2: a notification whose cursor is not strictly greater than the held
cursor is dropped with no emission and no state change; consequently, for
a window whose carried message ids are distinct (as in the Gmail change
feed), delivering the same cursor twice in a row emits any qualifying id
at most once in total — the second delivery emits nothing at all. -/
theorem c2_cursor_dedup (label : Option String) (env1 env2 : GmailEnv) (c : Nat)
    (st : GmailState) (hnodup : (windowIds env1).Nodup) :
    (∀ l, st.last_history_id = some l → c ≤ l →
      process_notification label env1 c st = (st, [])) ∧
    (process_notification label env2 c (process_notification label env1 c st).1).2 = [] ∧
    (∀ m : String,
      ((process_notification label env1 c st).2 ++
       (process_notification label env2 c (process_notification label env1 c st).1).2).count m
        ≤ 1) := by
  have hsecond :
      (process_notification label env2 c (process_notification label env1 c st).1).2 = [] := by
    obtain ⟨l', hl', hc'⟩ := process_notification_advances label env1 c st
    rw [process_notification_stale label env2 c _ l' hl' hc']
  refine ⟨fun l hl hc => process_notification_stale label env1 c st l hl hc, hsecond, ?_⟩
  intro m
  rw [List.count_append]
  rw [hsecond]
  simp only [List.count_nil, Nat.add_zero]
  obtain ⟨lat1, hist1⟩ := env1
  obtain ⟨lastO, proc⟩ := st
  cases lastO with
  | none =>
    cases lat1 with
    | error e => simp [process_notification]
    | ok o =>
      cases o with
      | none => simp [process_notification]
      | some msgId =>
        simp only [process_notification]
        split
        · simp
        · simp only [List.count_cons, List.count_nil]
          split <;> simp
  | some l =>
    by_cases hc : c ≤ l
    · rw [process_notification_stale label ⟨lat1, hist1⟩ c ⟨some l, proc⟩ l rfl hc]
      simp
    · cases hist1 with
      | error e => simp [process_notification, hc]
      | ok recs =>
        simp only [process_notification, if_neg hc]
        have hsub := process_msgs_sublist label (recs.flatMap fun r => r) proc
        have hwin : windowIds ⟨lat1, Except.ok recs⟩
            = (recs.flatMap fun r => r).map Prod.fst := by
          simp [windowIds]
        have hnd : (process_msgs label (recs.flatMap fun r => r) proc).2.Nodup :=
          List.Nodup.sublist hsub (hwin ▸ hnodup)
        exact List.nodup_iff_count_le_one.mp hnd m

/-- C2 witness: with held cursor 5 and a window carrying qualifying ids
m1 and m3 (and a wrong-label m2), delivering cursor 7 twice in a row: the
stale-drop rule holds at cursor 5, the second delivery of 7 emits
nothing, and each id is emitted at most once in total. -/
theorem c2_witness :
    process_notification (some "PAY")
        ⟨.ok none, .ok [[("m1", ["PAY"]), ("m2", ["OTHER"])], [("m3", ["PAY"])]]⟩
        5 ⟨some 5, []⟩ = (⟨some 5, []⟩, []) ∧
    (process_notification (some "PAY")
        ⟨.ok none, .ok [[("m1", ["PAY"]), ("m2", ["OTHER"])], [("m3", ["PAY"])]]⟩
        7 (process_notification (some "PAY")
            ⟨.ok none, .ok [[("m1", ["PAY"]), ("m2", ["OTHER"])], [("m3", ["PAY"])]]⟩
            7 ⟨some 5, []⟩).1).2 = [] ∧
    ((process_notification (some "PAY")
        ⟨.ok none, .ok [[("m1", ["PAY"]), ("m2", ["OTHER"])], [("m3", ["PAY"])]]⟩
        7 ⟨some 5, []⟩).2 ++
      (process_notification (some "PAY")
        ⟨.ok none, .ok [[("m1", ["PAY"]), ("m2", ["OTHER"])], [("m3", ["PAY"])]]⟩
        7 (process_notification (some "PAY")
            ⟨.ok none, .ok [[("m1", ["PAY"]), ("m2", ["OTHER"])], [("m3", ["PAY"])]]⟩
            7 ⟨some 5, []⟩).1).2).count "m1" ≤ 1 := by
  obtain ⟨hstale, hsecond, hcount⟩ := c2_cursor_dedup (some "PAY")
    ⟨.ok none, .ok [[("m1", ["PAY"]), ("m2", ["OTHER"])], [("m3", ["PAY"])]]⟩
    ⟨.ok none, .ok [[("m1", ["PAY"]), ("m2", ["OTHER"])], [("m3", ["PAY"])]]⟩
    7 ⟨some 5, []⟩ (by decide)
  obtain ⟨hstale5, _, _⟩ := c2_cursor_dedup (some "PAY")
    ⟨.ok none, .ok [[("m1", ["PAY"]), ("m2", ["OTHER"])], [("m3", ["PAY"])]]⟩
    ⟨.ok none, .ok [[("m1", ["PAY"]), ("m2", ["OTHER"])], [("m3", ["PAY"])]]⟩
    5 ⟨some 5, []⟩ (by decide)
  exact ⟨hstale5 5 rfl (le_refl 5), hsecond, hcount "m1"⟩

/-! ### C8 -/

theorem insertDescPair_perm (x : ℚ × String) (l : List (ℚ × String)) :
    (insertDescPair x l).Perm (x :: l) := by
  induction l with
  | nil => exact List.Perm.refl _
  | cons y ys ih =>
    rw [insertDescPair]
    split
    · exact List.Perm.refl _
    · exact (ih.cons y).trans (List.Perm.swap x y ys)

theorem sortDescPairs_perm (l : List (ℚ × String)) : (sortDescPairs l).Perm l := by
  induction l with
  | nil => exact List.Perm.refl _
  | cons x xs ih => exact (insertDescPair_perm x (sortDescPairs xs)).trans (ih.cons x)

theorem insertDescPair_pairwise (x : ℚ × String) (l : List (ℚ × String))
    (h : l.Pairwise fun p q => q.1 ≤ p.1) :
    (insertDescPair x l).Pairwise fun p q => q.1 ≤ p.1 := by
  induction l with
  | nil => simp [insertDescPair]
  | cons y ys ih =>
    rw [insertDescPair]
    split
    · rename_i hcond
      have hyx : y.1 ≤ x.1 := by
        rcases hcond with h1 | ⟨h2, _⟩
        · exact le_of_lt h1
        · exact le_of_eq h2
      refine List.pairwise_cons.mpr ⟨?_, h⟩
      intro z hz
      rcases List.mem_cons.mp hz with rfl | hz'
      · exact hyx
      · exact le_trans ((List.pairwise_cons.mp h).1 z hz') hyx
    · rename_i hcond
      have hxy : x.1 ≤ y.1 := by
        by_contra hlt
        exact hcond (Or.inl (lt_of_not_le hlt))
      refine List.pairwise_cons.mpr ⟨?_, ih (List.pairwise_cons.mp h).2⟩
      intro z hz
      have hz' : z ∈ x :: ys := (insertDescPair_perm x ys).mem_iff.mp hz
      rcases List.mem_cons.mp hz' with rfl | hz''
      · exact hxy
      · exact (List.pairwise_cons.mp h).1 z hz''

theorem sortDescPairs_pairwise (l : List (ℚ × String)) :
    (sortDescPairs l).Pairwise fun p q => q.1 ≤ p.1 := by
  induction l with
  | nil => simp [sortDescPairs]
  | cons x xs ih => exact insertDescPair_pairwise x (sortDescPairs xs) ih

theorem mem_closeMatchScored {word : String} {cutoff : ℚ} {poss : List String}
    {p : ℚ × String}
    (hp : p ∈ poss.filterMap fun x =>
      if cutoff ≤ simRatio x.data word.data then some (simRatio x.data word.data, x)
      else none) :
    p.1 = simRatio p.2.data word.data ∧ cutoff ≤ p.1 ∧ p.2 ∈ poss := by
  obtain ⟨a, ha, hfa⟩ := List.mem_filterMap.mp hp
  by_cases hq : cutoff ≤ simRatio a.data word.data
  · rw [if_pos hq] at hfa
    obtain rfl : (simRatio a.data word.data, a) = p := Option.some.inj hfa
    exact ⟨rfl, hq, ha⟩
  · rw [if_neg hq] at hfa
    exact absurd hfa (by simp)

theorem get_close_matches_sound {word : String} {poss : List String} {n : Nat}
    {cutoff : ℚ} {x : String} (hx : x ∈ get_close_matches word poss n cutoff) :
    x ∈ poss ∧ cutoff ≤ simRatio x.data word.data := by
  simp only [get_close_matches] at hx
  obtain ⟨p, hp_take, rfl⟩ := List.mem_map.mp hx
  have hp_sorted := List.mem_of_mem_take hp_take
  have hp_scored := (sortDescPairs_perm _).subset hp_sorted
  obtain ⟨hr, hq, hmem⟩ := mem_closeMatchScored hp_scored
  exact ⟨hmem, hr ▸ hq⟩

theorem get_close_matches_capped (word : String) (poss : List String) (n : Nat)
    (cutoff : ℚ) : (get_close_matches word poss n cutoff).length ≤ n := by
  simp [get_close_matches, List.length_take]

theorem get_close_matches_topN {word : String} {poss : List String} {n : Nat}
    {cutoff : ℚ} {y : String} (hy : y ∈ poss)
    (hq : cutoff ≤ simRatio y.data word.data)
    (hout : y ∉ get_close_matches word poss n cutoff) :
    (get_close_matches word poss n cutoff).length = n ∧
    ∀ x ∈ get_close_matches word poss n cutoff,
      simRatio y.data word.data ≤ simRatio x.data word.data := by
  have hsc : (simRatio y.data word.data, y) ∈ poss.filterMap fun x =>
      if cutoff ≤ simRatio x.data word.data then some (simRatio x.data word.data, x)
      else none :=
    List.mem_filterMap.mpr ⟨y, hy, by rw [if_pos hq]⟩
  have hsorted_mem : (simRatio y.data word.data, y) ∈ sortDescPairs
      (poss.filterMap fun x =>
        if cutoff ≤ simRatio x.data word.data then some (simRatio x.data word.data, x)
        else none) :=
    (sortDescPairs_perm _).mem_iff.mpr hsc
  set sorted := sortDescPairs (poss.filterMap fun x =>
    if cutoff ≤ simRatio x.data word.data then some (simRatio x.data word.data, x)
    else none) with hsorted_def
  have hsplit : sorted.take n ++ sorted.drop n = sorted := List.take_append_drop n sorted
  have hdrop : (simRatio y.data word.data, y) ∈ sorted.drop n := by
    rcases (List.mem_append.mp (hsplit ▸ hsorted_mem)) with htk | hdp
    · exact absurd (by simpa [get_close_matches] using
        List.mem_map.mpr ⟨_, htk, rfl⟩) hout
    · exact hdp
  have hdropne : sorted.drop n ≠ [] := fun hcon => by rw [hcon] at hdrop; simp at hdrop
  have hlen : n < sorted.length := by
    by_contra hcon
    exact hdropne (List.drop_eq_nil_iff.mpr (by omega))
  have hpw : (sorted.take n ++ sorted.drop n).Pairwise
      (fun p q : ℚ × String => q.1 ≤ p.1) := by
    rw [hsplit]
    exact sortDescPairs_pairwise _
  constructor
  · simp only [get_close_matches, ← hsorted_def, List.length_map, List.length_take]
    omega
  · intro x hx
    simp only [get_close_matches, ← hsorted_def] at hx
    obtain ⟨p, hp_take, rfl⟩ := List.mem_map.mp hx
    have hrel := (List.pairwise_append.mp hpw).2.2 p hp_take _ hdrop
    obtain ⟨hr, _, _⟩ := mem_closeMatchScored ((sortDescPairs_perm _).subset
      (List.mem_of_mem_take hp_take))
    simpa [← hr] using hrel

/-- C8: the matched-name set is the union of (a) candidates whose
sequence-similarity ratio against the query meets or exceeds the
threshold, capped to the top-N most similar (N = 10 in delete: every
member of the capped list qualifies, the list is at most N long, and any
qualifying candidate left out implies the list is full of candidates at
least as similar), and (b) candidates containing the lower-cased query as
a contiguous substring, with no count limit; on the spec's example both
yogurt variants match and "Bread" does not. -/
theorem c8_fuzzy_union_matcher :
    (∀ (query : String) (cands : List String) (cutoff : ℚ) (x : String),
      x ∈ delete_matched_names query cands cutoff ↔
        (x ∈ get_close_matches query cands 10 cutoff ∨
         (x ∈ cands ∧ pySubstr (pyStrip (pyLower query)) (pyLower x) = true))) ∧
    (∀ (word : String) (poss : List String) (n : Nat) (cutoff : ℚ) (x : String),
      x ∈ get_close_matches word poss n cutoff →
        x ∈ poss ∧ cutoff ≤ simRatio x.data word.data) ∧
    (∀ (word : String) (poss : List String) (n : Nat) (cutoff : ℚ),
      (get_close_matches word poss n cutoff).length ≤ n) ∧
    (∀ (word : String) (poss : List String) (n : Nat) (cutoff : ℚ) (y : String),
      y ∈ poss → cutoff ≤ simRatio y.data word.data →
      y ∉ get_close_matches word poss n cutoff →
      (get_close_matches word poss n cutoff).length = n ∧
      ∀ x ∈ get_close_matches word poss n cutoff,
        simRatio y.data word.data ≤ simRatio x.data word.data) ∧
    ("Yogurt" ∈ delete_matched_names "yogurt" ["Yogurt", "Yogurth Drink", "Bread"] (3/5) ∧
     "Yogurth Drink" ∈ delete_matched_names "yogurt" ["Yogurt", "Yogurth Drink", "Bread"] (3/5) ∧
     "Bread" ∉ delete_matched_names "yogurt" ["Yogurt", "Yogurth Drink", "Bread"] (3/5) ∧
     get_close_matches "yogurt" ["Yogurt", "Yogurth Drink", "Bread"] 10 (3/5) = ["Yogurt"]) := by
  refine ⟨?_, fun word poss n cutoff x hx => get_close_matches_sound hx,
    fun word poss n cutoff => get_close_matches_capped word poss n cutoff,
    fun word poss n cutoff y hy hq hout => get_close_matches_topN hy hq hout,
    by decide, by decide, by decide, by decide⟩
  intro query cands cutoff x
  simp [delete_matched_names, List.mem_append, List.mem_filter]

/-- C8 witness: the general clauses instantiated on the spec's example —
"Yogurt" is a member of the capped fuzzy list, hence a candidate whose
ratio meets the 0.6 threshold; "Yogurth Drink" matches through the
substring criterion via the union rule. -/
theorem c8_witness :
    ("Yogurt" ∈ ["Yogurt", "Yogurth Drink", "Bread"] ∧
      (3/5 : ℚ) ≤ simRatio "Yogurt".data "yogurt".data) ∧
    "Yogurth Drink" ∈ delete_matched_names "yogurt" ["Yogurt", "Yogurth Drink", "Bread"] (3/5) := by
  obtain ⟨hunion, hsound, hcap, htop, hex⟩ := c8_fuzzy_union_matcher
  refine ⟨hsound "yogurt" ["Yogurt", "Yogurth Drink", "Bread"] 10 (3/5) "Yogurt" ?_, ?_⟩
  · rw [hex.2.2.2]
    simp
  · exact (hunion "yogurt" ["Yogurt", "Yogurth Drink", "Bread"] (3/5) "Yogurth Drink").mpr
      (Or.inr ⟨by simp, by decide⟩)

end ExpenseAgent
